import Mathlib

/-!
# dynamics_solver: torque query and payload estimation

A shallow embedding of `dynamics_solver/src/dynamics_solver.cpp`.

* A C++ `double` is a value of `Dbl`: an exact rational, or one of the IEEE
  special values `+inf`, `-inf`, `NaN`.  Arithmetic on finite values is exact
  (rounding and overflow are not modelled); division by zero and the
  propagation of the special values follow IEEE 754.  Zero is unsigned: every
  zero divisor met in this file is the result of a subtraction or sits under
  `fabs`, so the sign of zero never changes a result.
* A `std::vector` is a `List`; an `operator[]` read is `xs[i]?` and an
  out-of-range read, `back()` of an empty vector, dereferencing `end()` and
  dereferencing an unset `chain_id_solver_` make the embedded function return
  `none`.
* The inverse-dynamics solver (`KDL::ChainIdSolver_RNE::CartToJnt`) is a
  function held in the estimator state.
* For sequences of calls, `getTorquesCall` embeds `getTorques` as a step on
  the estimator, with the solver as an object whose internals a call may
  change; `getTorquesCall_result` relates it to `getTorques`.
* What `initialize` obtains from the robot model and the KDL tree is gathered
  in `InitInput`; the constructor leaves `num_joints_` unwritten, so a fresh
  estimator is built from the value that member happens to hold.
-/

namespace dynamics_solver

/-- A C++ `double`: an exact rational or an IEEE special value. -/
inductive Dbl where
  | fin (q : ℚ)
  | pinf
  | ninf
  | nan
  deriving DecidableEq

namespace Dbl

/-- Unary minus. -/
def neg : Dbl → Dbl
  | fin a => fin (-a)
  | pinf => ninf
  | ninf => pinf
  | nan => nan

/-- Binary `a - b`. -/
def sub : Dbl → Dbl → Dbl
  | fin a, fin b => fin (a - b)
  | fin _, pinf => ninf
  | fin _, ninf => pinf
  | pinf, fin _ => pinf
  | pinf, ninf => pinf
  | ninf, fin _ => ninf
  | ninf, pinf => ninf
  | pinf, pinf => nan
  | ninf, ninf => nan
  | nan, _ => nan
  | _, nan => nan

/-- Binary `a / b`; a zero divisor gives an infinity of the sign of the
dividend, `0 / 0` and `inf / inf` give `NaN`. -/
def div : Dbl → Dbl → Dbl
  | fin a, fin b =>
    if b = 0 then (if 0 < a then pinf else if a < 0 then ninf else nan)
    else fin (a / b)
  | fin _, pinf => fin 0
  | fin _, ninf => fin 0
  | pinf, fin b => if b < 0 then ninf else pinf
  | ninf, fin b => if b < 0 then pinf else ninf
  | pinf, pinf => nan
  | pinf, ninf => nan
  | ninf, pinf => nan
  | ninf, ninf => nan
  | nan, _ => nan
  | _, nan => nan

/-- The C library `fabs`. -/
def fabs : Dbl → Dbl
  | fin a => fin |a|
  | pinf => pinf
  | ninf => pinf
  | nan => nan

/-- The comparison `a < b`; false as soon as one side is `NaN`. -/
def lt : Dbl → Dbl → Bool
  | fin a, fin b => decide (a < b)
  | fin _, pinf => true
  | ninf, fin _ => true
  | ninf, pinf => true
  | _, _ => false

/-- The comparison `a > b`, which C++ evaluates as `b < a`. -/
def gt (a b : Dbl) : Bool := lt b a

/-- The comparison `a == b`; false as soon as one side is `NaN`. -/
def eq : Dbl → Dbl → Bool
  | fin a, fin b => decide (a = b)
  | pinf, pinf => true
  | ninf, ninf => true
  | _, _ => false

/-- `std::max<double>(a, b)`, that is `(a < b) ? b : a`. -/
def max (a b : Dbl) : Dbl := if lt a b then b else a

end Dbl

/-- `geometry_msgs::Vector3`. -/
structure Vector3 where
  x : Dbl
  y : Dbl
  z : Dbl
  deriving DecidableEq

/-- `geometry_msgs::Wrench`. -/
structure Wrench where
  force : Vector3
  torque : Vector3
  deriving DecidableEq

/-- A default-constructed `geometry_msgs::Wrench`: all six components zero. -/
def Wrench.zero : Wrench := ⟨⟨.fin 0, .fin 0, .fin 0⟩, ⟨.fin 0, .fin 0, .fin 0⟩⟩

/-- A `KDL::Wrench`, indexed 0..5: three force then three torque components. -/
abbrev KdlWrench := List Dbl

/-- `KDL::ChainIdSolver_RNE::CartToJnt(q, q_dot, q_dotdot, f_ext, torques)`:
entry `i` of the pre-sized output array `torques` after the call. -/
abbrev ChainIdSolver_RNE :=
  List Dbl → List Dbl → List Dbl → List KdlWrench → Nat → Dbl

/-- The members of `DynamicsSolver` that the queries read.  `chain_id_solver_`
is `none` while the shared pointer has not been set. -/
structure DynamicsSolver where
  num_joints_ : Nat
  max_torques_ : List Dbl
  chain_id_solver_ : Option ChainIdSolver_RNE

/-- What a `getTorques` call leaves behind: the returned flag and the
contents of the caller's `torques` vector. -/
structure TorquesResult where
  ok : Bool
  torques : List Dbl
  deriving DecidableEq

/-- Lines 142-148: the six components copied into `kdl_wrenches[i]`. -/
def toKdlWrench (w : Wrench) : KdlWrench :=
  [w.force.x, w.force.y, w.force.z, w.torque.x, w.torque.y, w.torque.z]

/-- Lines 152-153: `torques[i] = kdl_torques(i)` for `i = 0 .. n-1`, on a
vector whose size the caller checked to be `n`. -/
def writeTorques (kdl_torques : Nat → Dbl) (n : Nat) (torques : List Dbl) : List Dbl :=
  (List.range n).foldl (fun t i => t.set i (kdl_torques i)) torques

/-- `DynamicsSolver::getTorques` (lines 101-156).  The five size checks come
first; the loop of lines 136-149 copies entries `0 .. num_joints_-1` of each
input into the KDL arrays; the solver's return code is ignored, as in the
source. -/
def getTorques (s : DynamicsSolver) (joint_angles joint_velocities joint_accelerations : List Dbl)
    (wrenches : List Wrench) (torques : List Dbl) : Option TorquesResult :=
  if joint_angles.length ≠ s.num_joints_ then some ⟨false, torques⟩
  else if joint_velocities.length ≠ s.num_joints_ then some ⟨false, torques⟩
  else if joint_accelerations.length ≠ s.num_joints_ then some ⟨false, torques⟩
  else if wrenches.length ≠ s.num_joints_ then some ⟨false, torques⟩
  else if torques.length ≠ s.num_joints_ then some ⟨false, torques⟩
  else
    let kdl_angles := joint_angles.take s.num_joints_
    let kdl_velocities := joint_velocities.take s.num_joints_
    let kdl_accelerations := joint_accelerations.take s.num_joints_
    let kdl_wrenches := (wrenches.take s.num_joints_).map toKdlWrench
    match s.chain_id_solver_ with
    | none => none
    | some solver =>
      let kdl_torques := solver kdl_angles kdl_velocities kdl_accelerations kdl_wrenches
      some ⟨true, writeTorques kdl_torques s.num_joints_ torques⟩

/-- What a `getMaxPayload` call leaves behind: the returned flag and the
contents of the two output references. -/
structure PayloadResult where
  ok : Bool
  payload : Dbl
  joint_saturated : Nat
  deriving DecidableEq

/-- Line 174: `wrenches.back().force.z = 1.0`; `none` on an empty vector. -/
def setBackForceZ : List Wrench → Option (List Wrench)
  | [] => none
  | [w] => some [{ w with force := { w.force with z := .fin 1 } }]
  | w :: w2 :: ws => (setBackForceZ (w2 :: ws)).map (fun r => w :: r)

/-- Line 181: the value pushed for one joint. -/
def payload_max (max_torque zero_torque torque : Dbl) : Dbl :=
  Dbl.fabs (Dbl.div
    (Dbl.max (Dbl.sub max_torque zero_torque) (Dbl.sub (Dbl.neg max_torque) zero_torque))
    (Dbl.sub torque zero_torque))

/-- Lines 178-185: the loop filling `joint_payload_max`, run over the joint
indices still to visit. -/
def jointPayloadMaxLoop (max_torques_ zero_torques torques : List Dbl) :
    List Nat → List Dbl → Option (List Dbl)
  | [], joint_payload_max => some joint_payload_max
  | i :: rest, joint_payload_max => do
    let m ← max_torques_[i]?
    let z ← zero_torques[i]?
    let t ← torques[i]?
    jointPayloadMaxLoop max_torques_ zero_torques torques rest
      (joint_payload_max ++ [payload_max m z t])

/-- `*std::max_element(first, last)`: the first largest element under `<`;
`none` on an empty range, where the returned iterator is `last`. -/
def max_element : List Dbl → Option Dbl
  | [] => none
  | x :: xs => some (xs.foldl (fun largest y => if Dbl.lt largest y then y else largest) x)

/-- `DynamicsSolver::getMaxPayload` (lines 158-188). -/
def getMaxPayload (s : DynamicsSolver) (joint_angles : List Dbl) (payload : Dbl)
    (joint_saturated : Nat) : Option PayloadResult :=
  if joint_angles.length ≠ s.num_joints_ then some ⟨false, payload, joint_saturated⟩
  else
    let joint_velocities : List Dbl := List.replicate s.num_joints_ (.fin 0)
    let joint_accelerations : List Dbl := List.replicate s.num_joints_ (.fin 0)
    let torques : List Dbl := List.replicate s.num_joints_ (.fin 0)
    let zero_torques : List Dbl := List.replicate s.num_joints_ (.fin 0)
    let wrenches : List Wrench := List.replicate s.num_joints_ Wrench.zero
    match getTorques s joint_angles joint_velocities joint_accelerations wrenches zero_torques with
    | none => none
    | some r0 =>
      if !r0.ok then some ⟨false, payload, joint_saturated⟩
      else
        match setBackForceZ wrenches with
        | none => none
        | some wrenches1 =>
          match getTorques s joint_angles joint_velocities joint_accelerations wrenches1 torques with
          | none => none
          | some r1 =>
            if !r1.ok then some ⟨false, payload, joint_saturated⟩
            else
              match jointPayloadMaxLoop s.max_torques_ r0.torques r1.torques
                  (List.range s.num_joints_) [] with
              | none => none
              | some joint_payload_max =>
                match max_element joint_payload_max with
                | none => none
                | some largest => some ⟨true, largest, joint_saturated⟩

/-- What a `findMaxTorqueMultiplier` call leaves behind: the returned value
and the contents of the output reference. -/
structure MultiplierResult where
  multiplier : Dbl
  joint_saturated : Nat
  deriving DecidableEq

/-- Lines 194-198: the loop filling `remaining_torques`. -/
def remainingTorquesLoop (max_torques_ zero_torques : List Dbl) :
    List Nat → List Dbl → Option (List Dbl)
  | [], remaining_torques => some remaining_torques
  | i :: rest, remaining_torques => do
    let m ← max_torques_[i]?
    let z ← zero_torques[i]?
    remainingTorquesLoop max_torques_ zero_torques rest
      (remaining_torques ++ [Dbl.sub (Dbl.fabs m) (Dbl.fabs z)])

/-- Lines 200-208: the search loop, carrying `multiplier` and
`joint_saturated`. -/
def multiplierLoop (joint_torques zero_torques remaining_torques : List Dbl) :
    List Nat → Dbl → Nat → Option (Dbl × Nat)
  | [], multiplier, joint_saturated => some (multiplier, joint_saturated)
  | i :: rest, multiplier, joint_saturated => do
    let jt ← joint_torques[i]?
    let z ← zero_torques[i]?
    let r ← remaining_torques[i]?
    let payload_torque := Dbl.sub (Dbl.fabs jt) (Dbl.fabs z)
    if Dbl.gt (Dbl.div payload_torque r) multiplier then
      multiplierLoop joint_torques zero_torques remaining_torques rest
        (Dbl.fabs (Dbl.div jt r)) i
    else
      multiplierLoop joint_torques zero_torques remaining_torques rest
        multiplier joint_saturated

/-- `DynamicsSolver::findMaxTorqueMultiplier` (lines 190-214). -/
def findMaxTorqueMultiplier (s : DynamicsSolver) (joint_torques zero_torques : List Dbl)
    (joint_saturated : Nat) : Option MultiplierResult :=
  match remainingTorquesLoop s.max_torques_ zero_torques (List.range s.num_joints_) [] with
  | none => none
  | some remaining_torques =>
    match multiplierLoop joint_torques zero_torques remaining_torques
        (List.range s.num_joints_) (.fin 0) joint_saturated with
    | none => none
    | some (multiplier, joint_saturated1) =>
      if Dbl.eq multiplier (.fin 0) then some ⟨.fin 1, joint_saturated1⟩
      else some ⟨Dbl.div (.fin 1) multiplier, joint_saturated1⟩

/-! ## Construction and initialization -/

/-- `DynamicsSolver::DynamicsSolver()` (lines 52-54).  The empty body leaves
`max_torques_` empty and `chain_id_solver_` unset, and does not write
`num_joints_`: `indeterminate` stands for whatever value that member holds. -/
def DynamicsSolver.constructed (indeterminate : Nat) : DynamicsSolver :=
  ⟨indeterminate, [], none⟩

/-- What `initialize` obtains from its arguments and from the libraries it
calls (robot model, group, KDL tree); these types are declared outside this
file's source.

* `hasJointModelGroup`, `isChain`: the two tests of lines 65 and 71;
* `chainJoints`: `some n` when `tree.getChain(base, tip, kdl_chain_)` succeeds
  with a chain of `n` joints, `none` when it fails and leaves `kdl_chain_`
  empty;
* `jointModelNames`: `joint_model_group_->getJointModelNames()`;
* `effort name`: `urdf_model_->getJoint(name)->limits->effort`, `none` when the
  joint or its limits are missing (a null pointer);
* `solver`: the `KDL::ChainIdSolver_RNE` built over `kdl_chain_`. -/
structure InitInput where
  hasJointModelGroup : Bool
  isChain : Bool
  chainJoints : Option Nat
  jointModelNames : List String
  effort : String → Option Dbl
  solver : ChainIdSolver_RNE

/-- Lines 93-94: one `max_torques_.push_back` per joint model name. -/
def pushEfforts (effort : String → Option Dbl) : List String → List Dbl → Option (List Dbl)
  | [], max_torques_ => some max_torques_
  | name :: rest, max_torques_ => do
    let e ← effort name
    pushEfforts effort rest (max_torques_ ++ [e])

/-- `DynamicsSolver::initialize` (lines 56-99): the returned flag and the
estimator afterwards.  The two early returns leave the members read by the
queries as they were; a failed `getChain` is only logged (lines 85-88). -/
def initializeSolver (s : DynamicsSolver) (inp : InitInput) : Option (Bool × DynamicsSolver) :=
  if !inp.hasJointModelGroup then some (false, s)
  else if !inp.isChain then some (false, s)
  else
    let num_joints_ := match inp.chainJoints with
      | some n => n
      | none => 0
    match pushEfforts inp.effort inp.jointModelNames s.max_torques_ with
    | none => none
    | some max_torques_ => some (true, ⟨num_joints_, max_torques_, some inp.solver⟩)

/-! ## The torque query with the solver object's state made explicit

`getTorques` is a `const` member, but `chain_id_solver_` points to an object
whose `CartToJnt` is not `const`: a call may change that object.  Here the
call is embedded with the estimator before and after it, so that a second call
runs on what the first one left behind. -/

/-- The object behind `chain_id_solver_`.  `CartToJnt` applied to the object's
internals and the four inputs gives the output array (entry `i` of `torques`
after the call) and the internals after the call. -/
structure SolverObject (σ : Type) where
  internals : σ
  CartToJnt : σ → List Dbl → List Dbl → List Dbl → List KdlWrench → (Nat → Dbl) × σ

/-- A solver that is deterministic for identical inputs: the torques it
returns do not depend on the internals left by earlier calls. -/
def SolverObject.deterministic {σ : Type} (o : SolverObject σ) : Prop :=
  ∀ (a b : σ) (q qd qdd : List Dbl) (f : List KdlWrench),
    (o.CartToJnt a q qd qdd f).1 = (o.CartToJnt b q qd qdd f).1

/-- The members of `DynamicsSolver` that the queries read, with the solver
object in place of its input-output function. -/
structure DynamicsSolverState (σ : Type) where
  num_joints_ : Nat
  max_torques_ : List Dbl
  chain_id_solver_ : Option (SolverObject σ)

/-- `DynamicsSolver::getTorques` (lines 101-156) as a step on the estimator:
the result of the call and the estimator after it.  The failing returns of
lines 107-131 come before any call on the solver; the body assigns no member,
and line 150 is the only statement that can change the solver object. -/
def getTorquesCall {σ : Type} (s : DynamicsSolverState σ)
    (joint_angles joint_velocities joint_accelerations : List Dbl)
    (wrenches : List Wrench) (torques : List Dbl) :
    Option (TorquesResult × DynamicsSolverState σ) :=
  if joint_angles.length ≠ s.num_joints_ then some (⟨false, torques⟩, s)
  else if joint_velocities.length ≠ s.num_joints_ then some (⟨false, torques⟩, s)
  else if joint_accelerations.length ≠ s.num_joints_ then some (⟨false, torques⟩, s)
  else if wrenches.length ≠ s.num_joints_ then some (⟨false, torques⟩, s)
  else if torques.length ≠ s.num_joints_ then some (⟨false, torques⟩, s)
  else
    let kdl_angles := joint_angles.take s.num_joints_
    let kdl_velocities := joint_velocities.take s.num_joints_
    let kdl_accelerations := joint_accelerations.take s.num_joints_
    let kdl_wrenches := (wrenches.take s.num_joints_).map toKdlWrench
    match s.chain_id_solver_ with
    | none => none
    | some solver =>
      let out := solver.CartToJnt solver.internals kdl_angles kdl_velocities
        kdl_accelerations kdl_wrenches
      some (⟨true, writeTorques out.1 s.num_joints_ torques⟩,
        { s with chain_id_solver_ := some { solver with internals := out.2 } })

/-- The estimator as the function-valued embedding sees it: the solver object
is replaced by its input-output function at its present internals. -/
def DynamicsSolverState.view {σ : Type} (s : DynamicsSolverState σ) : DynamicsSolver :=
  ⟨s.num_joints_, s.max_torques_,
    s.chain_id_solver_.map
      (fun o => fun q qd qdd f => (o.CartToJnt o.internals q qd qdd f).1)⟩

/-! ## Reference quantities used to state the properties -/

/-- The all-zero joint vector of length `n` (zero velocities, accelerations). -/
def zeros (n : Nat) : List Dbl := List.replicate n (.fin 0)

/-- The all-zero solver load: `n` wrenches with six zero components each. -/
def zeroLoad (n : Nat) : List KdlWrench :=
  List.replicate n [.fin 0, .fin 0, .fin 0, .fin 0, .fin 0, .fin 0]

/-- The reference solver load: all-zero except that the last wrench has its
force z-component (index 2) equal to 1. -/
def unitLoad (n : Nat) : List KdlWrench :=
  List.replicate (n - 1) [.fin 0, .fin 0, .fin 0, .fin 0, .fin 0, .fin 0]
    ++ [[.fin 0, .fin 0, .fin 1, .fin 0, .fin 0, .fin 0]]

/-- The per-joint admissible payload in exact arithmetic:
`|max(limit - zero, -limit - zero) / (load - zero)|`. -/
def payloadMaxQ (limit zero load : ℚ) : ℚ :=
  |max (limit - zero) (-limit - zero) / (load - zero)|

/-- A test double for the solver whose torques are affine in the z-force of
the last wrench: joint `i` gets `base[i] + fz * gain[i]`. -/
def affineSolver (base gain : List ℚ) : ChainIdSolver_RNE := fun _ _ _ f_ext i =>
  match f_ext.getLast? with
  | some [_, _, .fin fz, _, _, _] => .fin (base.getD i 0 + fz * gain.getD i 0)
  | _ => .nan

/-- A test double for the solver object: its internals count the calls made
so far, and its torques are those of `affineSolver base gain`. -/
def countingSolver (base gain : List ℚ) : SolverObject Nat :=
  ⟨0, fun calls q qd qdd f => (affineSolver base gain q qd qdd f, calls + 1)⟩

/-- A test double for a solver that is not deterministic: the torque of every
joint is the number of calls made so far. -/
def driftingSolver : SolverObject Nat :=
  ⟨0, fun calls _ _ _ _ => (fun _ => Dbl.fin calls, calls + 1)⟩

/-! ## Helper lemmas: the torque query -/

theorem writeTorques_upto (f : Nat → Dbl) (torques : List Dbl) :
    ∀ k, k ≤ torques.length →
      (List.range k).foldl (fun t i => t.set i (f i)) torques
        = (List.range k).map f ++ torques.drop k := by
  intro k
  induction k with
  | zero => intro _; simp
  | succ k ih =>
    intro hk
    have hk1 : k ≤ torques.length := Nat.le_of_succ_le hk
    rw [List.range_succ, List.foldl_append, ih hk1]
    simp only [List.foldl_cons, List.foldl_nil, List.map_append, List.map_cons, List.map_nil]
    have hlen : ((List.range k).map f).length = k := by simp
    rw [List.set_append_right _ _ (by simp), hlen, Nat.sub_self]
    have hd : torques.drop k = torques[k] :: torques.drop (k + 1) := by
      rw [List.drop_eq_getElem_cons]
    rw [hd, List.set_cons_zero, List.append_assoc]
    rfl

theorem writeTorques_eq (f : Nat → Dbl) (n : Nat) (torques : List Dbl)
    (h : torques.length = n) : writeTorques f n torques = (List.range n).map f := by
  unfold writeTorques
  rw [writeTorques_upto f torques n (by omega)]
  simp [← h]

theorem getTorques_sized (s : DynamicsSolver) (solver : ChainIdSolver_RNE)
    (q qd qdd : List Dbl) (w : List Wrench) (t : List Dbl)
    (hs : s.chain_id_solver_ = some solver)
    (hq : q.length = s.num_joints_) (hqd : qd.length = s.num_joints_)
    (hqdd : qdd.length = s.num_joints_) (hw : w.length = s.num_joints_)
    (ht : t.length = s.num_joints_) :
    getTorques s q qd qdd w t
      = some ⟨true, (List.range s.num_joints_).map (solver q qd qdd (w.map toKdlWrench))⟩ := by
  unfold getTorques
  simp only [hq, hqd, hqdd, hw, ht, ne_eq, not_true_eq_false, if_false, hs]
  rw [writeTorques_eq _ _ _ ht]
  rw [List.take_of_length_le (le_of_eq hq), List.take_of_length_le (le_of_eq hqd),
    List.take_of_length_le (le_of_eq hqdd), List.take_of_length_le (le_of_eq hw)]

/-! ## Helper lemmas: the payload loop -/

theorem setBackForceZ_replicate (n : Nat) :
    setBackForceZ (List.replicate (n + 1) Wrench.zero)
      = some (List.replicate n Wrench.zero
          ++ [⟨⟨Dbl.fin 0, Dbl.fin 0, Dbl.fin 1⟩, ⟨Dbl.fin 0, Dbl.fin 0, Dbl.fin 0⟩⟩]) := by
  induction n with
  | zero => rfl
  | succ n ih =>
    rw [List.replicate_succ, List.replicate_succ, setBackForceZ, ← List.replicate_succ, ih]
    rfl

theorem jointPayloadMaxLoop_eq (M Z T : List Dbl) (m z t : Nat → Dbl) :
    ∀ (idx : List Nat) (acc : List Dbl),
      (∀ i ∈ idx, M[i]? = some (m i) ∧ Z[i]? = some (z i) ∧ T[i]? = some (t i)) →
      jointPayloadMaxLoop M Z T idx acc
        = some (acc ++ idx.map (fun i => payload_max (m i) (z i) (t i))) := by
  intro idx
  induction idx with
  | nil => intro acc _; simp [jointPayloadMaxLoop]
  | cons i rest ih =>
    intro acc h
    obtain ⟨h1, h2, h3⟩ := h i (List.mem_cons_self _ _)
    simp only [jointPayloadMaxLoop, h1, h2, h3, Option.bind_eq_bind, Option.some_bind]
    rw [ih _ (fun j hj => h j (List.mem_cons_of_mem _ hj))]
    simp

theorem max_element_foldl_fin (ys : List ℚ) :
    ∀ x : ℚ, (ys.map Dbl.fin).foldl (fun largest y => if Dbl.lt largest y then y else largest) (Dbl.fin x)
      = Dbl.fin (ys.foldl (fun a b => if a < b then b else a) x) := by
  induction ys with
  | nil => intro x; rfl
  | cons y ys ih =>
    intro x
    simp only [List.map_cons, List.foldl_cons, Dbl.lt]
    by_cases h : x < y
    · simp only [h, decide_True, if_true]; exact ih y
    · simp only [h, decide_False, if_false]; exact ih x

theorem foldl_largest_spec (ys : List ℚ) :
    ∀ x : ℚ, let p := ys.foldl (fun a b => if a < b then b else a) x
      p ∈ x :: ys ∧ ∀ q ∈ x :: ys, q ≤ p := by
  induction ys with
  | nil => intro x; simp
  | cons y ys ih =>
    intro x
    simp only [List.foldl_cons]
    by_cases h : x < y
    · simp only [h, if_true]
      obtain ⟨hm, hb⟩ := ih y
      refine ⟨List.mem_cons_of_mem _ hm, ?_⟩
      intro q hq
      rcases List.mem_cons.1 hq with rfl | hq
      · exact le_trans (le_of_lt h) (hb y (List.mem_cons_self _ _))
      · exact hb q hq
    · simp only [h, if_false]
      obtain ⟨hm, hb⟩ := ih x
      refine ⟨?_, ?_⟩
      · rcases List.mem_cons.1 hm with hx | hx
        · exact List.mem_cons.2 (Or.inl hx)
        · exact List.mem_cons_of_mem _ (List.mem_cons_of_mem _ hx)
      · intro q hq
        rcases List.mem_cons.1 hq with rfl | hq
        · exact hb q (List.mem_cons_self _ _)
        · rcases List.mem_cons.1 hq with rfl | hq
          · exact le_trans (not_lt.1 h) (hb x (List.mem_cons_self _ _))
          · exact hb q (List.mem_cons_of_mem _ hq)

theorem max_element_fin (qs : List ℚ) (hne : qs ≠ []) :
    ∃ p, max_element (qs.map Dbl.fin) = some (Dbl.fin p) ∧ p ∈ qs ∧ ∀ q ∈ qs, q ≤ p := by
  cases qs with
  | nil => exact absurd rfl hne
  | cons x ys =>
    refine ⟨ys.foldl (fun a b => if a < b then b else a) x, ?_, foldl_largest_spec ys x⟩
    simp only [List.map_cons, max_element, max_element_foldl_fin]

theorem max_element_isSome (xs : List Dbl) (hne : xs ≠ []) : ∃ v, max_element xs = some v := by
  cases xs with
  | nil => exact absurd rfl hne
  | cons x ys => exact ⟨_, rfl⟩

theorem map_toKdlWrench_zero (n : Nat) :
    (List.replicate n Wrench.zero).map toKdlWrench = zeroLoad n := by
  simp [zeroLoad, toKdlWrench, Wrench.zero]

theorem map_toKdlWrench_unit (n : Nat) :
    (List.replicate n Wrench.zero
        ++ [(⟨⟨Dbl.fin 0, Dbl.fin 0, Dbl.fin 1⟩, ⟨Dbl.fin 0, Dbl.fin 0, Dbl.fin 0⟩⟩ : Wrench)]).map
        toKdlWrench
      = unitLoad (n + 1) := by
  simp [unitLoad, toKdlWrench, Wrench.zero]

/-- On an estimator whose solver is set, with at least one joint and a limit
for every joint, `getMaxPayload` on a position vector of the right size is the
maximum of the per-joint values of line 181. -/
theorem getMaxPayload_sized (s : DynamicsSolver) (solver : ChainIdSolver_RNE)
    (q : List Dbl) (payload : Dbl) (js : Nat) (m : Nat → Dbl)
    (hs : s.chain_id_solver_ = some solver) (hN : 1 ≤ s.num_joints_)
    (hq : q.length = s.num_joints_)
    (hM : ∀ i, i < s.num_joints_ → s.max_torques_[i]? = some (m i)) :
    getMaxPayload s q payload js
      = (max_element ((List.range s.num_joints_).map (fun i =>
          payload_max (m i)
            (solver q (zeros s.num_joints_) (zeros s.num_joints_) (zeroLoad s.num_joints_) i)
            (solver q (zeros s.num_joints_) (zeros s.num_joints_) (unitLoad s.num_joints_) i)))).map
          (fun v => ⟨true, v, js⟩) := by
  obtain ⟨n, hn⟩ : ∃ n, s.num_joints_ = n + 1 := ⟨s.num_joints_ - 1, by omega⟩
  unfold getMaxPayload
  simp only [hq, ne_eq, not_true_eq_false, if_false]
  rw [getTorques_sized s solver q _ _ _ _ hs hq (by simp) (by simp) (by simp) (by simp)]
  simp only [Bool.not_true, Bool.false_eq_true, if_false]
  rw [hn, setBackForceZ_replicate, ← hn]
  simp only []
  rw [getTorques_sized s solver q _ _ _ _ hs hq (by simp) (by simp) (by simp [hn]) (by simp)]
  simp only [Bool.not_true, Bool.false_eq_true, if_false]
  rw [jointPayloadMaxLoop_eq s.max_torques_ _ _ m
    (solver q (zeros s.num_joints_) (zeros s.num_joints_) (zeroLoad s.num_joints_))
    (solver q (zeros s.num_joints_) (zeros s.num_joints_) (unitLoad s.num_joints_))]
  · simp only [List.nil_append]
    cases max_element _ <;> rfl
  · intro i hi
    have hi : i < s.num_joints_ := List.mem_range.1 hi
    refine ⟨hM i hi, ?_, ?_⟩
    · rw [map_toKdlWrench_zero]
      simp [List.getElem?_map, List.getElem?_range, hi, zeros]
    · rw [map_toKdlWrench_unit, ← hn]
      simp [List.getElem?_map, List.getElem?_range, hi, zeros]

theorem max_fin (a b : ℚ) : Dbl.max (Dbl.fin a) (Dbl.fin b) = Dbl.fin (max a b) := by
  unfold Dbl.max
  simp only [Dbl.lt, decide_eq_true_eq]
  by_cases h : a < b
  · rw [if_pos h, max_eq_right (le_of_lt h)]
  · rw [if_neg h, max_eq_left (not_lt.1 h)]

theorem payload_max_fin (l z t : ℚ) (h : t ≠ z) :
    payload_max (Dbl.fin l) (Dbl.fin z) (Dbl.fin t) = Dbl.fin (payloadMaxQ l z t) := by
  have h0 : t - z ≠ 0 := sub_ne_zero.2 h
  simp only [payload_max, Dbl.sub, Dbl.neg, max_fin, Dbl.div, h0, if_false, Dbl.fabs, payloadMaxQ]

/-- The spec scenario with unit-load torques `[4, 5]` evaluated on the code:
the reported payload is 4. -/
theorem scenario_binding_joint_eval (js : Nat) :
    getMaxPayload ⟨2, [Dbl.fin 10, Dbl.fin 10], some (affineSolver [2, 3] [2, 2])⟩
      [Dbl.fin 0, Dbl.fin 0] (Dbl.fin 0) js = some ⟨true, Dbl.fin 4, js⟩ := by
  rw [getMaxPayload_sized _ (affineSolver [2, 3] [2, 2]) _ _ _
    (fun _ => Dbl.fin 10) rfl (by decide) rfl
    (by intro i hi
        have hi : i < 2 := hi
        interval_cases i <;> rfl)]
  simp [affineSolver, zeroLoad, unitLoad, zeros, List.range, List.range.loop, max_element,
    payload_max, Dbl.sub, Dbl.neg, Dbl.max, Dbl.lt, Dbl.div, Dbl.fabs]
  norm_num [abs_of_pos]

/-- The spec scenario with unit-load torques `[4, 3]` evaluated on the code:
joint 1 divides its headroom 7 by a zero contribution and the reported payload
is `+inf`. -/
theorem scenario_unloaded_joint_eval (js : Nat) :
    getMaxPayload ⟨2, [Dbl.fin 10, Dbl.fin 10], some (affineSolver [2, 3] [2, 0])⟩
      [Dbl.fin 0, Dbl.fin 0] (Dbl.fin 0) js = some ⟨true, Dbl.pinf, js⟩ := by
  rw [getMaxPayload_sized _ (affineSolver [2, 3] [2, 0]) _ _ _
    (fun _ => Dbl.fin 10) rfl (by decide) rfl
    (by intro i hi
        have hi : i < 2 := hi
        interval_cases i <;> rfl)]
  simp [affineSolver, zeroLoad, unitLoad, zeros, List.range, List.range.loop, max_element,
    payload_max, Dbl.sub, Dbl.neg, Dbl.max, Dbl.lt, Dbl.div, Dbl.fabs]
  norm_num [abs_of_pos]

/-! ## Payload estimation -/

/-- C1: on an estimator with `N ≥ 1` joints and finite limits `limit i`, for
a position vector of length `N` and a solver whose zero-load torques
`zeroTorque i` and unit-load torques `loadTorque i` are finite and differ at
every joint, `getMaxPayload` succeeds, leaves `joint_saturated` alone and sets
`payload` to the largest of the per-joint values
`|max(limit - zero, -limit - zero) / (load - zero)|`. -/
theorem getMaxPayload_reports_largest (s : DynamicsSolver) (solver : ChainIdSolver_RNE)
    (q : List Dbl) (payload : Dbl) (js : Nat) (limit zeroTorque loadTorque : Nat → ℚ)
    (hs : s.chain_id_solver_ = some solver) (hN : 1 ≤ s.num_joints_)
    (hlen : s.max_torques_.length = s.num_joints_)
    (hlim : ∀ i, i < s.num_joints_ → s.max_torques_[i]? = some (Dbl.fin (limit i)))
    (hq : q.length = s.num_joints_)
    (hz : ∀ i, i < s.num_joints_ →
      solver q (zeros s.num_joints_) (zeros s.num_joints_) (zeroLoad s.num_joints_) i
        = Dbl.fin (zeroTorque i))
    (hl : ∀ i, i < s.num_joints_ →
      solver q (zeros s.num_joints_) (zeros s.num_joints_) (unitLoad s.num_joints_) i
        = Dbl.fin (loadTorque i))
    (hne : ∀ i, i < s.num_joints_ → loadTorque i ≠ zeroTorque i) :
    ∃ p : ℚ, getMaxPayload s q payload js = some ⟨true, Dbl.fin p, js⟩
      ∧ (∃ k, k < s.num_joints_ ∧ p = payloadMaxQ (limit k) (zeroTorque k) (loadTorque k))
      ∧ ∀ i, i < s.num_joints_ → payloadMaxQ (limit i) (zeroTorque i) (loadTorque i) ≤ p := by
  have _ := hlen
  rw [getMaxPayload_sized s solver q payload js (fun i => Dbl.fin (limit i)) hs hN hq hlim]
  have hmap : (List.range s.num_joints_).map (fun i =>
      payload_max (Dbl.fin (limit i))
        (solver q (zeros s.num_joints_) (zeros s.num_joints_) (zeroLoad s.num_joints_) i)
        (solver q (zeros s.num_joints_) (zeros s.num_joints_) (unitLoad s.num_joints_) i))
      = ((List.range s.num_joints_).map
          (fun i => payloadMaxQ (limit i) (zeroTorque i) (loadTorque i))).map Dbl.fin := by
    rw [List.map_map]
    apply List.map_congr_left
    intro i hi
    have hi : i < s.num_joints_ := List.mem_range.1 hi
    simp only [Function.comp, hz i hi, hl i hi, payload_max_fin _ _ _ (hne i hi)]
  rw [hmap]
  have hne0 : (List.range s.num_joints_).map
      (fun i => payloadMaxQ (limit i) (zeroTorque i) (loadTorque i)) ≠ [] := by
    intro h
    have := congrArg List.length h
    simp at this
    omega
  obtain ⟨p, hp, hmem, hub⟩ := max_element_fin _ hne0
  refine ⟨p, by rw [hp]; rfl, ?_, ?_⟩
  · obtain ⟨k, hk, hkp⟩ := List.mem_map.1 hmem
    exact ⟨k, List.mem_range.1 hk, hkp.symm⟩
  · intro i hi
    exact hub _ (List.mem_map.2 ⟨i, List.mem_range.2 hi, rfl⟩)

/-- C1, the spec scenario: limits `[10, 10]`, zero-load torques `[2, 3]` and
unit-load torques `[4, 5]` give payload 4. -/
theorem getMaxPayload_reports_largest_witness :
    getMaxPayload ⟨2, [Dbl.fin 10, Dbl.fin 10], some (affineSolver [2, 3] [2, 2])⟩
      [Dbl.fin 0, Dbl.fin 0] (Dbl.fin 0) 7 = some ⟨true, Dbl.fin 4, 7⟩ := by
  obtain ⟨p, hp, ⟨k, hk, hpk⟩, hub⟩ :=
    getMaxPayload_reports_largest
      ⟨2, [Dbl.fin 10, Dbl.fin 10], some (affineSolver [2, 3] [2, 2])⟩
      (affineSolver [2, 3] [2, 2]) [Dbl.fin 0, Dbl.fin 0] (Dbl.fin 0) 7
      (fun _ => 10) (fun i => ([2, 3] : List ℚ).getD i 0) (fun i => ([4, 5] : List ℚ).getD i 0)
      rfl (by decide) rfl
      (by intro i hi
          have hi : i < 2 := hi
          interval_cases i <;> rfl)
      rfl
      (by intro i hi
          have hi : i < 2 := hi
          interval_cases i <;> simp [affineSolver, zeroLoad, List.replicate])
      (by intro i hi
          have hi : i < 2 := hi
          interval_cases i <;> simp [affineSolver, unitLoad, List.replicate] <;> norm_num)
      (by intro i hi
          have hi : i < 2 := hi
          interval_cases i <;> simp)
  have h0 := hub 0 (by decide)
  have hk : k < 2 := hk
  have e0 : payloadMaxQ 10 2 4 = 4 := by
    unfold payloadMaxQ; norm_num [abs_of_pos]
  have e1 : payloadMaxQ 10 3 5 = 7 / 2 := by
    unfold payloadMaxQ; norm_num [abs_of_pos]
  simp only [List.getD_cons_zero] at h0
  rw [e0] at h0
  interval_cases k
  · simp only [List.getD_cons_zero] at hpk
    rw [e0] at hpk
    rw [hp, hpk]
  · simp only [List.getD_cons_succ, List.getD_cons_zero] at hpk
    rw [e1] at hpk
    rw [hpk] at h0
    norm_num at h0

/-- C2: the payload reported need not keep every joint within its limit.  In
the spec scenario (limits `[10, 10]`, zero-load torques `[2, 3]`, unit-load
torques `[4, 5]`, solver affine in the tip load) the code reports payload 4,
and under a tip load of 4 the solver asks joint 1 for torque 11, above its
limit 10. -/
theorem getMaxPayload_payload_overloads_joint :
    getMaxPayload ⟨2, [Dbl.fin 10, Dbl.fin 10], some (affineSolver [2, 3] [2, 2])⟩
        [Dbl.fin 0, Dbl.fin 0] (Dbl.fin 0) 0 = some ⟨true, Dbl.fin 4, 0⟩
      ∧ affineSolver [2, 3] [2, 2] [Dbl.fin 0, Dbl.fin 0] (zeros 2) (zeros 2)
          [[Dbl.fin 0, Dbl.fin 0, Dbl.fin 0, Dbl.fin 0, Dbl.fin 0, Dbl.fin 0],
           [Dbl.fin 0, Dbl.fin 0, Dbl.fin 4, Dbl.fin 0, Dbl.fin 0, Dbl.fin 0]] 1 = Dbl.fin 11
      ∧ ¬ (|(11 : ℚ)| ≤ 10) := by
  refine ⟨scenario_binding_joint_eval 0, ?_, ?_⟩
  · simp [affineSolver]
    norm_num
  · norm_num [abs_of_pos]

/-- C3: a joint with zero contribution is not excluded.  In the spec scenario
(limits `[10, 10]`, zero-load torques `[2, 3]`, unit-load torques `[4, 3]`)
the code reports `+inf`, not the value 4 of the only loaded joint. -/
theorem getMaxPayload_unloaded_joint_not_excluded :
    getMaxPayload ⟨2, [Dbl.fin 10, Dbl.fin 10], some (affineSolver [2, 3] [2, 0])⟩
        [Dbl.fin 0, Dbl.fin 0] (Dbl.fin 0) 0 = some ⟨true, Dbl.pinf, 0⟩
      ∧ affineSolver [2, 3] [2, 0] [Dbl.fin 0, Dbl.fin 0] (zeros 2) (zeros 2) (zeroLoad 2) 1
          = affineSolver [2, 3] [2, 0] [Dbl.fin 0, Dbl.fin 0] (zeros 2) (zeros 2) (unitLoad 2) 1
      ∧ payloadMaxQ 10 2 4 = 4 := by
  refine ⟨scenario_unloaded_joint_eval 0, ?_, ?_⟩
  · simp [affineSolver, zeroLoad, unitLoad, List.replicate]
  · unfold payloadMaxQ; norm_num [abs_of_pos]

/-- C4: on an estimator with a solver, `N ≥ 1` joints and `N` limits,
`getMaxPayload` returns, fails exactly when the position vector's length is
not `N`, leaves `payload` unchanged on failure, and when the length is `N`
both internal `getTorques` calls succeed. -/
theorem getMaxPayload_fails_iff_dimension (s : DynamicsSolver) (solver : ChainIdSolver_RNE)
    (q : List Dbl) (payload : Dbl) (js : Nat)
    (hs : s.chain_id_solver_ = some solver) (hN : 1 ≤ s.num_joints_)
    (hlen : s.max_torques_.length = s.num_joints_) :
    ∃ r, getMaxPayload s q payload js = some r
      ∧ (r.ok = false ↔ q.length ≠ s.num_joints_)
      ∧ (r.ok = false → r.payload = payload)
      ∧ (q.length = s.num_joints_ →
          (∃ t0, getTorques s q (zeros s.num_joints_) (zeros s.num_joints_)
              (List.replicate s.num_joints_ Wrench.zero) (zeros s.num_joints_)
                = some ⟨true, t0⟩)
          ∧ ∃ w1 t1, setBackForceZ (List.replicate s.num_joints_ Wrench.zero) = some w1
              ∧ getTorques s q (zeros s.num_joints_) (zeros s.num_joints_) w1
                  (zeros s.num_joints_) = some ⟨true, t1⟩) := by
  by_cases hq : q.length = s.num_joints_
  · have hM : ∀ i, i < s.num_joints_ →
        s.max_torques_[i]? = some (s.max_torques_.getD i (Dbl.fin 0)) := by
      intro i hi
      rw [List.getD_eq_getElem?_getD, List.getElem?_eq_getElem (by omega)]
      rfl
    have hne : (List.range s.num_joints_).map (fun i =>
        payload_max (s.max_torques_.getD i (Dbl.fin 0))
          (solver q (zeros s.num_joints_) (zeros s.num_joints_) (zeroLoad s.num_joints_) i)
          (solver q (zeros s.num_joints_) (zeros s.num_joints_) (unitLoad s.num_joints_) i))
        ≠ [] := by
      intro h
      have := congrArg List.length h
      simp at this
      omega
    obtain ⟨v, hv⟩ := max_element_isSome _ hne
    refine ⟨⟨true, v, js⟩, ?_, by simp [hq], by simp, ?_⟩
    · rw [getMaxPayload_sized s solver q payload js _ hs hN hq hM, hv]
      rfl
    · intro _
      obtain ⟨n, hn⟩ : ∃ n, s.num_joints_ = n + 1 := ⟨s.num_joints_ - 1, by omega⟩
      refine ⟨⟨_, getTorques_sized s solver q _ _ _ _ hs hq (by simp [zeros]) (by simp [zeros])
        (by simp) (by simp [zeros])⟩, ?_⟩
      have h1 := getTorques_sized s solver q (zeros s.num_joints_) (zeros s.num_joints_)
        (List.replicate n Wrench.zero
          ++ [⟨⟨Dbl.fin 0, Dbl.fin 0, Dbl.fin 1⟩, ⟨Dbl.fin 0, Dbl.fin 0, Dbl.fin 0⟩⟩])
        (zeros s.num_joints_) hs hq (by simp [zeros]) (by simp [zeros])
        (by simp [hn]) (by simp [zeros])
      exact ⟨_, _, by rw [hn]; exact setBackForceZ_replicate n, h1⟩
  · refine ⟨⟨false, payload, js⟩, ?_, by simp [hq], by simp, fun h => absurd h hq⟩
    unfold getMaxPayload
    rw [if_pos hq]

/-- C4 at the spec scenario: two joints, two limits, a position vector of
length two. -/
theorem getMaxPayload_fails_iff_dimension_witness :
    ∃ r, getMaxPayload ⟨2, [Dbl.fin 10, Dbl.fin 10], some (affineSolver [2, 3] [2, 2])⟩
        [Dbl.fin 0, Dbl.fin 0] (Dbl.fin 0) 0 = some r
      ∧ (r.ok = false ↔ [Dbl.fin 0, Dbl.fin 0].length ≠ 2)
      ∧ (r.ok = false → r.payload = Dbl.fin 0)
      ∧ ([Dbl.fin 0, Dbl.fin 0].length = 2 →
          (∃ t0, getTorques ⟨2, [Dbl.fin 10, Dbl.fin 10], some (affineSolver [2, 3] [2, 2])⟩
              [Dbl.fin 0, Dbl.fin 0] (zeros 2) (zeros 2)
              (List.replicate 2 Wrench.zero) (zeros 2) = some ⟨true, t0⟩)
          ∧ ∃ w1 t1, setBackForceZ (List.replicate 2 Wrench.zero) = some w1
              ∧ getTorques ⟨2, [Dbl.fin 10, Dbl.fin 10], some (affineSolver [2, 3] [2, 2])⟩
                  [Dbl.fin 0, Dbl.fin 0] (zeros 2) (zeros 2) w1 (zeros 2) = some ⟨true, t1⟩) :=
  getMaxPayload_fails_iff_dimension
    ⟨2, [Dbl.fin 10, Dbl.fin 10], some (affineSolver [2, 3] [2, 2])⟩
    (affineSolver [2, 3] [2, 2]) [Dbl.fin 0, Dbl.fin 0] (Dbl.fin 0) 0 rfl (by decide) rfl

/-! ## Torque query -/

/-- C5: when one of the position, velocity, acceleration or wrench vectors
has a length other than `N`, `getTorques` returns failure with the caller's
`torques` vector untouched, whatever solver the estimator holds (the same
result with any solver and with none: the solver is not called). -/
theorem getTorques_dimension_mismatch (s : DynamicsSolver)
    (q qd qdd : List Dbl) (w : List Wrench) (t : List Dbl)
    (h : q.length ≠ s.num_joints_ ∨ qd.length ≠ s.num_joints_
      ∨ qdd.length ≠ s.num_joints_ ∨ w.length ≠ s.num_joints_) :
    getTorques s q qd qdd w t = some ⟨false, t⟩
      ∧ ∀ c : Option ChainIdSolver_RNE,
          getTorques { s with chain_id_solver_ := c } q qd qdd w t = some ⟨false, t⟩ := by
  have key : ∀ s1 : DynamicsSolver, s1.num_joints_ = s.num_joints_ →
      getTorques s1 q qd qdd w t = some ⟨false, t⟩ := by
    intro s1 h1
    unfold getTorques
    rw [h1]
    by_cases h0 : q.length ≠ s.num_joints_
    · rw [if_pos h0]
    · rw [if_neg h0]
      by_cases h2 : qd.length ≠ s.num_joints_
      · rw [if_pos h2]
      · rw [if_neg h2]
        by_cases h3 : qdd.length ≠ s.num_joints_
        · rw [if_pos h3]
        · rw [if_neg h3]
          by_cases h4 : w.length ≠ s.num_joints_
          · rw [if_pos h4]
          · exact absurd h (by tauto)
  exact ⟨key s rfl, fun c => key _ rfl⟩

/-- C5 on a two-joint estimator: a velocity vector of length one. -/
theorem getTorques_dimension_mismatch_witness :
    getTorques ⟨2, [Dbl.fin 10, Dbl.fin 10], some (affineSolver [2, 3] [2, 2])⟩
        [Dbl.fin 0, Dbl.fin 0] [Dbl.fin 0] [Dbl.fin 0, Dbl.fin 0]
        [Wrench.zero, Wrench.zero] [Dbl.fin 8, Dbl.fin 9] = some ⟨false, [Dbl.fin 8, Dbl.fin 9]⟩
      ∧ ∀ c : Option ChainIdSolver_RNE,
          getTorques { (⟨2, [Dbl.fin 10, Dbl.fin 10], some (affineSolver [2, 3] [2, 2])⟩ :
              DynamicsSolver) with chain_id_solver_ := c }
            [Dbl.fin 0, Dbl.fin 0] [Dbl.fin 0] [Dbl.fin 0, Dbl.fin 0]
            [Wrench.zero, Wrench.zero] [Dbl.fin 8, Dbl.fin 9]
              = some ⟨false, [Dbl.fin 8, Dbl.fin 9]⟩ :=
  getTorques_dimension_mismatch
    ⟨2, [Dbl.fin 10, Dbl.fin 10], some (affineSolver [2, 3] [2, 2])⟩
    [Dbl.fin 0, Dbl.fin 0] [Dbl.fin 0] [Dbl.fin 0, Dbl.fin 0]
    [Wrench.zero, Wrench.zero] [Dbl.fin 8, Dbl.fin 9] (Or.inr (Or.inl (by decide)))

/-- C6: when the four input vectors and the `torques` buffer all have length
`N`, `getTorques` succeeds and leaves in `torques` exactly `N` entries, entry
`i` being the solver's `i`-th torque for the same positions, velocities and
accelerations and for the wrenches handed over as the 6-tuples
`(force.x, force.y, force.z, torque.x, torque.y, torque.z)`. -/
theorem getTorques_delegates (s : DynamicsSolver) (solver : ChainIdSolver_RNE)
    (q qd qdd : List Dbl) (w : List Wrench) (t : List Dbl)
    (hs : s.chain_id_solver_ = some solver)
    (hq : q.length = s.num_joints_) (hqd : qd.length = s.num_joints_)
    (hqdd : qdd.length = s.num_joints_) (hw : w.length = s.num_joints_)
    (ht : t.length = s.num_joints_) :
    ∃ out, getTorques s q qd qdd w t = some ⟨true, out⟩
      ∧ out.length = s.num_joints_
      ∧ ∀ i, i < s.num_joints_ →
          out[i]? = some (solver q qd qdd
            (w.map (fun x =>
              [x.force.x, x.force.y, x.force.z, x.torque.x, x.torque.y, x.torque.z])) i) := by
  refine ⟨_, getTorques_sized s solver q qd qdd w t hs hq hqd hqdd hw ht, by simp, ?_⟩
  intro i hi
  simp only [List.getElem?_map, List.getElem?_range hi, Option.map_some']
  rfl

/-- C6 on a two-joint estimator with the affine test solver and a tip load
of 1: the output is the solver's `[4, 5]`. -/
theorem getTorques_delegates_witness :
    ∃ out, getTorques ⟨2, [Dbl.fin 10, Dbl.fin 10], some (affineSolver [2, 3] [2, 2])⟩
        [Dbl.fin 0, Dbl.fin 0] (zeros 2) (zeros 2)
        [Wrench.zero, ⟨⟨Dbl.fin 0, Dbl.fin 0, Dbl.fin 1⟩, ⟨Dbl.fin 0, Dbl.fin 0, Dbl.fin 0⟩⟩]
        [Dbl.fin 8, Dbl.fin 9] = some ⟨true, out⟩
      ∧ out.length = 2
      ∧ ∀ i, i < 2 →
          out[i]? = some (affineSolver [2, 3] [2, 2] [Dbl.fin 0, Dbl.fin 0] (zeros 2) (zeros 2)
            (([Wrench.zero,
                ⟨⟨Dbl.fin 0, Dbl.fin 0, Dbl.fin 1⟩, ⟨Dbl.fin 0, Dbl.fin 0, Dbl.fin 0⟩⟩] :
                List Wrench).map (fun x =>
              [x.force.x, x.force.y, x.force.z, x.torque.x, x.torque.y, x.torque.z])) i) :=
  getTorques_delegates
    ⟨2, [Dbl.fin 10, Dbl.fin 10], some (affineSolver [2, 3] [2, 2])⟩
    (affineSolver [2, 3] [2, 2]) [Dbl.fin 0, Dbl.fin 0] (zeros 2) (zeros 2)
    [Wrench.zero, ⟨⟨Dbl.fin 0, Dbl.fin 0, Dbl.fin 1⟩, ⟨Dbl.fin 0, Dbl.fin 0, Dbl.fin 0⟩⟩]
    [Dbl.fin 8, Dbl.fin 9] rfl rfl rfl rfl rfl rfl

/-- C7: whenever `getMaxPayload` returns, with success or with failure, the
`joint_saturated` output holds the value it had before the call. -/
theorem getMaxPayload_keeps_joint_saturated (s : DynamicsSolver) (q : List Dbl)
    (payload : Dbl) (js : Nat) (r : PayloadResult)
    (h : getMaxPayload s q payload js = some r) : r.joint_saturated = js := by
  unfold getMaxPayload at h
  simp only [] at h
  repeat' split at h
  all_goals first
    | (cases h; rfl)
    | (exact absurd h (by simp))

/-- C7 on the spec scenario (success) with `joint_saturated` initially 7. -/
theorem getMaxPayload_keeps_joint_saturated_witness :
    getMaxPayload ⟨2, [Dbl.fin 10, Dbl.fin 10], some (affineSolver [2, 3] [2, 2])⟩
        [Dbl.fin 0, Dbl.fin 0] (Dbl.fin 0) 7 = some ⟨true, Dbl.fin 4, 7⟩
      ∧ (⟨true, Dbl.fin 4, 7⟩ : PayloadResult).joint_saturated = 7 :=
  ⟨scenario_binding_joint_eval 7,
    getMaxPayload_keeps_joint_saturated
      ⟨2, [Dbl.fin 10, Dbl.fin 10], some (affineSolver [2, 3] [2, 2])⟩
      [Dbl.fin 0, Dbl.fin 0] (Dbl.fin 0) 7 ⟨true, Dbl.fin 4, 7⟩ (scenario_binding_joint_eval 7)⟩

/-! ## Helper lemmas: the multiplier search -/

theorem remainingTorquesLoop_eq (M Z : List Dbl) (m z : Nat → Dbl) :
    ∀ (idx : List Nat) (acc : List Dbl),
      (∀ i ∈ idx, M[i]? = some (m i) ∧ Z[i]? = some (z i)) →
      remainingTorquesLoop M Z idx acc
        = some (acc ++ idx.map (fun i => Dbl.sub (Dbl.fabs (m i)) (Dbl.fabs (z i)))) := by
  intro idx
  induction idx with
  | nil => intro acc _; simp [remainingTorquesLoop]
  | cons i rest ih =>
    intro acc h
    obtain ⟨h1, h2⟩ := h i (List.mem_cons_self _ _)
    simp only [remainingTorquesLoop, h1, h2, Option.bind_eq_bind, Option.some_bind]
    rw [ih _ (fun j hj => h j (List.mem_cons_of_mem _ hj))]
    simp

theorem zero_torque_keeps_zero (z r : Dbl)
    (h : Dbl.gt (Dbl.div (Dbl.sub (Dbl.fabs (Dbl.fin 0)) (Dbl.fabs z)) r) (Dbl.fin 0) = true) :
    Dbl.fabs (Dbl.div (Dbl.fin 0) r) = Dbl.fin 0 := by
  cases r with
  | fin b =>
    by_cases hb : b = 0
    · subst hb
      exfalso
      cases z with
      | fin q =>
        have hq : ¬ (0 < |(0 : ℚ)| - |q|) := by
          have := abs_nonneg q
          simp only [abs_zero, zero_sub, not_lt]
          linarith
        simp only [Dbl.gt, Dbl.fabs, Dbl.sub, Dbl.div, if_true, hq, if_false] at h
        split_ifs at h <;> simp [Dbl.lt] at h
      | pinf => simp [Dbl.gt, Dbl.fabs, Dbl.sub, Dbl.div, Dbl.lt] at h
      | ninf => simp [Dbl.gt, Dbl.fabs, Dbl.sub, Dbl.div, Dbl.lt] at h
      | nan => simp [Dbl.gt, Dbl.fabs, Dbl.sub, Dbl.div, Dbl.lt] at h
    · simp [Dbl.div, hb, Dbl.fabs]
  | pinf => simp [Dbl.div, Dbl.fabs]
  | ninf => simp [Dbl.div, Dbl.fabs]
  | nan =>
    exfalso
    cases z <;> simp [Dbl.gt, Dbl.fabs, Dbl.sub, Dbl.div, Dbl.lt] at h

theorem multiplierLoop_zero (JT Z R : List Dbl) :
    ∀ (idx : List Nat) (js : Nat),
      (∀ i ∈ idx, JT[i]? = some (Dbl.fin 0) ∧ (∃ z, Z[i]? = some z) ∧ ∃ r, R[i]? = some r) →
      ∃ js1, multiplierLoop JT Z R idx (Dbl.fin 0) js = some (Dbl.fin 0, js1) := by
  intro idx
  induction idx with
  | nil => intro js _; exact ⟨js, rfl⟩
  | cons i rest ih =>
    intro js h
    obtain ⟨h1, ⟨z, h2⟩, ⟨r, h3⟩⟩ := h i (List.mem_cons_self _ _)
    have hrest := fun j hj => h j (List.mem_cons_of_mem _ hj)
    simp only [multiplierLoop, h1, h2, h3, Option.bind_eq_bind, Option.some_bind]
    by_cases hc : Dbl.gt (Dbl.div (Dbl.sub (Dbl.fabs (Dbl.fin 0)) (Dbl.fabs z)) r) (Dbl.fin 0) = true
    · rw [if_pos hc, zero_torque_keeps_zero z r hc]
      exact ih i hrest
    · rw [if_neg hc]
      exact ih js hrest

/-! ## Saturation-multiplier search -/

/-- C8: the returned multiplier is not always the reciprocal of the largest
ratio `|jointTorque| / remaining`.  With one joint, limit 10, zero-load torque
5 and joint torque 3 (remaining 5 > 0, ratio 3/5), the test of line 203
compares `(3 - 5) / 5` with 0, the branch is skipped and the code returns 1,
not 5/3. -/
theorem findMaxTorqueMultiplier_not_reciprocal :
    findMaxTorqueMultiplier ⟨1, [Dbl.fin 10], some (affineSolver [5] [1])⟩
        [Dbl.fin 3] [Dbl.fin 5] 0 = some ⟨Dbl.fin 1, 0⟩
      ∧ 0 < |(10 : ℚ)| - |5|
      ∧ |(3 : ℚ)| / (|10| - |5|) ≠ 0
      ∧ 1 / (|(3 : ℚ)| / (|10| - |5|)) ≠ 1 := by
  refine ⟨?_, ?_, ?_, ?_⟩
  · simp [findMaxTorqueMultiplier, remainingTorquesLoop, multiplierLoop, List.range,
      List.range.loop, Dbl.sub, Dbl.fabs, Dbl.div, Dbl.gt, Dbl.lt, Dbl.eq]
    norm_num [abs_of_pos]
  all_goals norm_num [abs_of_pos]

/-- C9: the index left in `joint_saturated` is not always a joint of largest
ratio `|jointTorque| / remaining`.  With limits `[10, 10]`, zero-load torques
`[0, 5]` and joint torques `[1, 4]` the ratios are 1/10 and 4/5, yet the code
leaves index 0: joint 1 is tested with `(4 - 5) / 5`. -/
theorem findMaxTorqueMultiplier_wrong_joint :
    findMaxTorqueMultiplier ⟨2, [Dbl.fin 10, Dbl.fin 10], some (affineSolver [0, 5] [1, 1])⟩
        [Dbl.fin 1, Dbl.fin 4] [Dbl.fin 0, Dbl.fin 5] 7 = some ⟨Dbl.fin 10, 0⟩
      ∧ 0 < |(10 : ℚ)| - |0| ∧ 0 < |(10 : ℚ)| - |5|
      ∧ |(1 : ℚ)| / (|10| - |0|) < |(4 : ℚ)| / (|10| - |5|) := by
  refine ⟨?_, ?_, ?_, ?_⟩
  · simp [findMaxTorqueMultiplier, remainingTorquesLoop, multiplierLoop, List.range,
      List.range.loop, Dbl.sub, Dbl.fabs, Dbl.div, Dbl.gt, Dbl.lt, Dbl.eq]
    norm_num [abs_of_pos]
  all_goals norm_num [abs_of_pos]

/-- C10: when every joint torque is exactly zero, `findMaxTorqueMultiplier`
returns exactly 1, for every joint count `N`, every vector of `N` limits and
every vector of `N` zero-load torques, whatever the signs of the remaining
torques (and also when they are zero, infinite or `NaN`). -/
theorem findMaxTorqueMultiplier_defaults_to_one (s : DynamicsSolver)
    (zero_torques : List Dbl) (js : Nat)
    (hM : s.max_torques_.length = s.num_joints_)
    (hZ : zero_torques.length = s.num_joints_) :
    ∃ js1, findMaxTorqueMultiplier s (List.replicate s.num_joints_ (Dbl.fin 0)) zero_torques js
      = some ⟨Dbl.fin 1, js1⟩ := by
  have hMi : ∀ i ∈ List.range s.num_joints_,
      s.max_torques_[i]? = some (s.max_torques_.getD i (Dbl.fin 0))
        ∧ zero_torques[i]? = some (zero_torques.getD i (Dbl.fin 0)) := by
    intro i hi
    have hi : i < s.num_joints_ := List.mem_range.1 hi
    constructor
    · rw [List.getD_eq_getElem?_getD, List.getElem?_eq_getElem (by omega)]; rfl
    · rw [List.getD_eq_getElem?_getD, List.getElem?_eq_getElem (by omega)]; rfl
  unfold findMaxTorqueMultiplier
  rw [remainingTorquesLoop_eq _ _ _ _ _ _ hMi]
  simp only [List.nil_append]
  obtain ⟨js1, h1⟩ := multiplierLoop_zero (List.replicate s.num_joints_ (Dbl.fin 0)) zero_torques
    ((List.range s.num_joints_).map (fun i =>
      Dbl.sub (Dbl.fabs (s.max_torques_.getD i (Dbl.fin 0)))
        (Dbl.fabs (zero_torques.getD i (Dbl.fin 0)))))
    (List.range s.num_joints_) js
    (by
      intro i hi
      have hi2 : i < s.num_joints_ := List.mem_range.1 hi
      refine ⟨?_, ⟨_, (hMi i hi).2⟩, ?_⟩
      · simp [List.getElem?_replicate, hi2]
      · simp [List.getElem?_map, List.getElem?_range, hi2])
  refine ⟨js1, ?_⟩
  rw [h1]
  simp [Dbl.eq]

/-- C10 on two joints, one with negative and one with zero remaining torque
(limits `[1, 2]`, zero-load torques `[2, 2]`). -/
theorem findMaxTorqueMultiplier_defaults_to_one_witness :
    ∃ js1, findMaxTorqueMultiplier ⟨2, [Dbl.fin 1, Dbl.fin 2], some (affineSolver [2, 2] [1, 1])⟩
        (List.replicate 2 (Dbl.fin 0)) [Dbl.fin 2, Dbl.fin 2] 7 = some ⟨Dbl.fin 1, js1⟩ :=
  findMaxTorqueMultiplier_defaults_to_one
    ⟨2, [Dbl.fin 1, Dbl.fin 2], some (affineSolver [2, 2] [1, 1])⟩
    [Dbl.fin 2, Dbl.fin 2] 7 rfl rfl

/-! ## Initialization -/

/-- C11: a failed `initialize` does not make every later query return
failure.  On a freshly constructed estimator whose `num_joints_` holds the
value `k`, `initialize` fails for an absent group and for a group that is not
a chain and leaves the estimator as constructed; a later `getTorques` with
five vectors of length `k`, and a later `getMaxPayload` with a position vector
of length `k`, pass the size checks and dereference the unset
`chain_id_solver_` instead of returning `false`. -/
theorem failed_init_then_query_faults (k : Nat) (inp : InitInput) (payload : Dbl)
    (js : Nat) :
    initializeSolver (DynamicsSolver.constructed k) { inp with hasJointModelGroup := false }
        = some (false, DynamicsSolver.constructed k)
      ∧ initializeSolver (DynamicsSolver.constructed k)
          { inp with hasJointModelGroup := true, isChain := false }
        = some (false, DynamicsSolver.constructed k)
      ∧ getTorques (DynamicsSolver.constructed k) (zeros k) (zeros k) (zeros k)
          (List.replicate k Wrench.zero) (zeros k) = none
      ∧ getMaxPayload (DynamicsSolver.constructed k) (zeros k) payload js = none := by
  have hT : ∀ t : List Dbl, t.length = k →
      getTorques (DynamicsSolver.constructed k) (zeros k) (zeros k) (zeros k)
        (List.replicate k Wrench.zero) t = none := by
    intro t ht
    simp [getTorques, DynamicsSolver.constructed, zeros, ht]
  refine ⟨rfl, rfl, hT _ (by simp [zeros]), ?_⟩
  have h0 := hT (List.replicate k (Dbl.fin 0)) (by simp)
  simp only [zeros, DynamicsSolver.constructed] at h0
  simp [getMaxPayload, DynamicsSolver.constructed, zeros, h0]

/-- C12: a successful `initialize` can leave `max_torques_` with a length
other than `num_joints_`.  When `tree.getChain` fails the error is logged but
`initialize` goes on and returns `true` with `num_joints_ = 0` and one limit
per group joint (here two); and a second successful `initialize` appends to
`max_torques_`, giving four limits for two joints. -/
theorem init_limits_length_mismatch :
    (∃ s, initializeSolver (DynamicsSolver.constructed 0)
          ⟨true, true, none, ["shoulder", "elbow"], fun _ => some (Dbl.fin 10),
            affineSolver [2, 3] [2, 2]⟩ = some (true, s)
        ∧ s.num_joints_ = 0 ∧ s.max_torques_.length = 2)
      ∧ ∃ s1 s2, initializeSolver (DynamicsSolver.constructed 0)
          ⟨true, true, some 2, ["shoulder", "elbow"], fun _ => some (Dbl.fin 10),
            affineSolver [2, 3] [2, 2]⟩ = some (true, s1)
        ∧ initializeSolver s1
          ⟨true, true, some 2, ["shoulder", "elbow"], fun _ => some (Dbl.fin 10),
            affineSolver [2, 3] [2, 2]⟩ = some (true, s2)
        ∧ s2.num_joints_ = 2 ∧ s2.max_torques_.length = 4 :=
  ⟨⟨_, rfl, rfl, rfl⟩, ⟨_, _, rfl, rfl, rfl, rfl⟩⟩

/-! ## Torque query: determinism and the output buffer -/

theorem getTorquesCall_sized {σ : Type} (s : DynamicsSolverState σ) (o : SolverObject σ)
    (q qd qdd : List Dbl) (w : List Wrench) (t : List Dbl)
    (hs : s.chain_id_solver_ = some o)
    (hq : q.length = s.num_joints_) (hqd : qd.length = s.num_joints_)
    (hqdd : qdd.length = s.num_joints_) (hw : w.length = s.num_joints_)
    (ht : t.length = s.num_joints_) :
    getTorquesCall s q qd qdd w t
      = some (⟨true, (List.range s.num_joints_).map
            (o.CartToJnt o.internals q qd qdd (w.map toKdlWrench)).1⟩,
          { s with chain_id_solver_ := some { o with
              internals := (o.CartToJnt o.internals q qd qdd (w.map toKdlWrench)).2 } }) := by
  unfold getTorquesCall
  simp only [hq, hqd, hqdd, hw, ht, ne_eq, not_true_eq_false, if_false, hs]
  rw [writeTorques_eq _ _ _ ht]
  rw [List.take_of_length_le (le_of_eq hq), List.take_of_length_le (le_of_eq hqd),
    List.take_of_length_le (le_of_eq hqdd), List.take_of_length_le (le_of_eq hw)]

theorem getTorquesCall_mismatch {σ : Type} (s : DynamicsSolverState σ)
    (q qd qdd : List Dbl) (w : List Wrench) (t : List Dbl)
    (h : ¬ (q.length = s.num_joints_ ∧ qd.length = s.num_joints_
      ∧ qdd.length = s.num_joints_ ∧ w.length = s.num_joints_ ∧ t.length = s.num_joints_)) :
    getTorquesCall s q qd qdd w t = some (⟨false, t⟩, s) := by
  unfold getTorquesCall
  by_cases h0 : q.length ≠ s.num_joints_
  · rw [if_pos h0]
  · rw [if_neg h0]
    by_cases h2 : qd.length ≠ s.num_joints_
    · rw [if_pos h2]
    · rw [if_neg h2]
      by_cases h3 : qdd.length ≠ s.num_joints_
      · rw [if_pos h3]
      · rw [if_neg h3]
        by_cases h4 : w.length ≠ s.num_joints_
        · rw [if_pos h4]
        · rw [if_neg h4]
          by_cases h5 : t.length ≠ s.num_joints_
          · rw [if_pos h5]
          · exact absurd ⟨not_not.1 h0, not_not.1 h2, not_not.1 h3, not_not.1 h4,
              not_not.1 h5⟩ h

/-- What one call returns in the state-passing embedding is what `getTorques`
returns on the estimator's view. -/
theorem getTorquesCall_result {σ : Type} (s : DynamicsSolverState σ)
    (q qd qdd : List Dbl) (w : List Wrench) (t : List Dbl) :
    (getTorquesCall s q qd qdd w t).map Prod.fst = getTorques s.view q qd qdd w t := by
  unfold getTorquesCall getTorques DynamicsSolverState.view
  simp only []
  split_ifs
  · rfl
  · rfl
  · rfl
  · rfl
  · rfl
  · cases s.chain_id_solver_ <;> rfl

/-- Without determinism of the solver the second of two identical calls can
return other torques: the drifting test solver gives `[0, 0]`, then `[1, 1]`. -/
theorem getTorquesCall_drifting_differs :
    ∃ s1 s2,
      getTorquesCall ⟨2, [Dbl.fin 10, Dbl.fin 10], some driftingSolver⟩
          [Dbl.fin 0, Dbl.fin 0] (zeros 2) (zeros 2) (List.replicate 2 Wrench.zero) (zeros 2)
        = some (⟨true, [Dbl.fin 0, Dbl.fin 0]⟩, s1)
      ∧ getTorquesCall s1
          [Dbl.fin 0, Dbl.fin 0] (zeros 2) (zeros 2) (List.replicate 2 Wrench.zero) (zeros 2)
        = some (⟨true, [Dbl.fin 1, Dbl.fin 1]⟩, s2) := by
  refine ⟨⟨2, [Dbl.fin 10, Dbl.fin 10], some ⟨1, driftingSolver.CartToJnt⟩⟩,
    ⟨2, [Dbl.fin 10, Dbl.fin 10], some ⟨2, driftingSolver.CartToJnt⟩⟩, ?_, ?_⟩
  · rw [getTorquesCall_sized _ driftingSolver _ _ _ _ _ rfl rfl rfl rfl rfl rfl]
    simp [driftingSolver, List.range, List.range.loop]
  · rw [getTorquesCall_sized _ ⟨1, driftingSolver.CartToJnt⟩ _ _ _ _ _ rfl rfl rfl rfl rfl rfl]
    simp [driftingSolver, List.range, List.range.loop]

/-- C13: on an initialized estimator whose solver is deterministic (its
torques do not depend on the internals earlier calls left in it), a
`getTorques` call followed by a second one with the same inputs, on the
estimator as the first call left it and with an output buffer of the same
size, both return, with the same flag and, on success, the same torque vector
(also when the buffer contents differ; with identical buffers the two results
are identical in every case).  The first call leaves `num_joints_`,
`max_torques_` and the solver's function as they were: it changes at most the
solver's internals, and nothing at all when it fails. -/
theorem getTorques_repeatable {σ : Type} (s : DynamicsSolverState σ) (o : SolverObject σ)
    (q qd qdd : List Dbl) (w : List Wrench) (t1 t2 : List Dbl)
    (hs : s.chain_id_solver_ = some o) (hdet : o.deterministic)
    (ht : t1.length = t2.length) :
    ∃ r1 s1 r2 s2,
      getTorquesCall s q qd qdd w t1 = some (r1, s1)
      ∧ getTorquesCall s1 q qd qdd w t2 = some (r2, s2)
      ∧ s1.num_joints_ = s.num_joints_ ∧ s1.max_torques_ = s.max_torques_
      ∧ (∃ o1, s1.chain_id_solver_ = some o1 ∧ o1.CartToJnt = o.CartToJnt)
      ∧ r1.ok = r2.ok
      ∧ (r1.ok = true → r1.torques = r2.torques)
      ∧ (t1 = t2 → r1 = r2)
      ∧ (r1.ok = false → r1.torques = t1 ∧ r2.torques = t2 ∧ s1 = s) := by
  by_cases hall : q.length = s.num_joints_ ∧ qd.length = s.num_joints_
      ∧ qdd.length = s.num_joints_ ∧ w.length = s.num_joints_ ∧ t1.length = s.num_joints_
  · obtain ⟨hq, hqd, hqdd, hw, ht1⟩ := hall
    have h1 := getTorquesCall_sized s o q qd qdd w t1 hs hq hqd hqdd hw ht1
    have h2 := getTorquesCall_sized
      { s with chain_id_solver_ := some { o with
          internals := (o.CartToJnt o.internals q qd qdd (w.map toKdlWrench)).2 } }
      { o with internals := (o.CartToJnt o.internals q qd qdd (w.map toKdlWrench)).2 }
      q qd qdd w t2 rfl hq hqd hqdd hw (ht ▸ ht1)
    have hsame : (o.CartToJnt (o.CartToJnt o.internals q qd qdd (w.map toKdlWrench)).2
          q qd qdd (w.map toKdlWrench)).1
        = (o.CartToJnt o.internals q qd qdd (w.map toKdlWrench)).1 := hdet _ _ _ _ _ _
    refine ⟨_, _, _, _, h1, h2, rfl, rfl, ⟨_, rfl, rfl⟩, rfl, ?_, ?_, fun h => absurd h (by simp)⟩
    · intro _
      simp only [hsame]
    · intro _
      simp only [hsame]
  · have hall2 : ¬ (q.length = s.num_joints_ ∧ qd.length = s.num_joints_
        ∧ qdd.length = s.num_joints_ ∧ w.length = s.num_joints_
        ∧ t2.length = s.num_joints_) := by
      rw [← ht]; exact hall
    refine ⟨_, _, _, _, getTorquesCall_mismatch s q qd qdd w t1 hall,
      getTorquesCall_mismatch s q qd qdd w t2 hall2, rfl, rfl, ⟨o, hs, rfl⟩, rfl,
      fun h => absurd h (by simp), ?_, fun _ => ⟨rfl, rfl, rfl⟩⟩
    intro h
    rw [h]

/-- C13 on a two-joint estimator whose solver counts its calls: zero
velocities, accelerations and wrenches, and two output buffers of size two
with different contents. -/
theorem getTorques_repeatable_witness :
    ∃ r1 s1 r2 s2,
      getTorquesCall ⟨2, [Dbl.fin 10, Dbl.fin 10], some (countingSolver [2, 3] [2, 2])⟩
          [Dbl.fin 0, Dbl.fin 0] (zeros 2) (zeros 2) (List.replicate 2 Wrench.zero)
          [Dbl.fin 8, Dbl.fin 9] = some (r1, s1)
      ∧ getTorquesCall s1
          [Dbl.fin 0, Dbl.fin 0] (zeros 2) (zeros 2) (List.replicate 2 Wrench.zero)
          [Dbl.fin 0, Dbl.fin 0] = some (r2, s2)
      ∧ s1.num_joints_ = 2 ∧ s1.max_torques_ = [Dbl.fin 10, Dbl.fin 10]
      ∧ (∃ o1, s1.chain_id_solver_ = some o1
          ∧ o1.CartToJnt = (countingSolver [2, 3] [2, 2]).CartToJnt)
      ∧ r1.ok = r2.ok
      ∧ (r1.ok = true → r1.torques = r2.torques)
      ∧ (([Dbl.fin 8, Dbl.fin 9] : List Dbl) = [Dbl.fin 0, Dbl.fin 0] → r1 = r2)
      ∧ (r1.ok = false → r1.torques = [Dbl.fin 8, Dbl.fin 9]
          ∧ r2.torques = [Dbl.fin 0, Dbl.fin 0]
          ∧ s1 = ⟨2, [Dbl.fin 10, Dbl.fin 10], some (countingSolver [2, 3] [2, 2])⟩) :=
  getTorques_repeatable
    ⟨2, [Dbl.fin 10, Dbl.fin 10], some (countingSolver [2, 3] [2, 2])⟩
    (countingSolver [2, 3] [2, 2]) [Dbl.fin 0, Dbl.fin 0] (zeros 2) (zeros 2)
    (List.replicate 2 Wrench.zero) [Dbl.fin 8, Dbl.fin 9] [Dbl.fin 0, Dbl.fin 0] rfl
    (fun _ _ _ _ _ _ => rfl) rfl

/-- C17: when the four input vectors have length `N` and the `torques` buffer
has another length, `getTorques` returns failure with the buffer as the caller
passed it, with any solver and with none (the solver is not called); hence, on
an estimator whose solver is set, `getTorques` succeeds exactly when all five
vectors have length `N`. -/
theorem getTorques_checks_output_buffer (s : DynamicsSolver) (solver : ChainIdSolver_RNE)
    (q qd qdd : List Dbl) (w : List Wrench) (t : List Dbl)
    (hs : s.chain_id_solver_ = some solver) :
    (q.length = s.num_joints_ → qd.length = s.num_joints_ → qdd.length = s.num_joints_ →
        w.length = s.num_joints_ → t.length ≠ s.num_joints_ →
        ∀ c : Option ChainIdSolver_RNE,
          getTorques { s with chain_id_solver_ := c } q qd qdd w t = some ⟨false, t⟩)
      ∧ ((∃ out, getTorques s q qd qdd w t = some ⟨true, out⟩) ↔
          (q.length = s.num_joints_ ∧ qd.length = s.num_joints_ ∧ qdd.length = s.num_joints_
            ∧ w.length = s.num_joints_ ∧ t.length = s.num_joints_)) := by
  constructor
  · intro hq hqd hqdd hw ht c
    simp [getTorques, hq, hqd, hqdd, hw, ht]
  · constructor
    · rintro ⟨out, h⟩
      unfold getTorques at h
      by_contra hall
      split_ifs at h with h0 h2 h3 h4 h5
      all_goals first
        | (simp at h; done)
        | exact hall ⟨not_not.1 h0, not_not.1 h2, not_not.1 h3, not_not.1 h4, not_not.1 h5⟩
    · rintro ⟨hq, hqd, hqdd, hw, ht⟩
      exact ⟨_, getTorques_sized s solver q qd qdd w t hs hq hqd hqdd hw ht⟩

/-- C17 on a two-joint estimator: inputs of length two, a buffer of length
one, and no solver. -/
theorem getTorques_checks_output_buffer_witness :
    getTorques { (⟨2, [Dbl.fin 10, Dbl.fin 10], some (affineSolver [2, 3] [2, 2])⟩ :
          DynamicsSolver) with chain_id_solver_ := none }
        [Dbl.fin 0, Dbl.fin 0] (zeros 2) (zeros 2) (List.replicate 2 Wrench.zero)
        [Dbl.fin 8] = some ⟨false, [Dbl.fin 8]⟩
      ∧ ((∃ out, getTorques ⟨2, [Dbl.fin 10, Dbl.fin 10], some (affineSolver [2, 3] [2, 2])⟩
            [Dbl.fin 0, Dbl.fin 0] (zeros 2) (zeros 2) (List.replicate 2 Wrench.zero)
            [Dbl.fin 8] = some ⟨true, out⟩) ↔
          (([Dbl.fin 0, Dbl.fin 0] : List Dbl).length = 2 ∧ (zeros 2).length = 2
            ∧ (zeros 2).length = 2 ∧ (List.replicate 2 Wrench.zero).length = 2
            ∧ ([Dbl.fin 8] : List Dbl).length = 2)) :=
  ⟨(getTorques_checks_output_buffer
      ⟨2, [Dbl.fin 10, Dbl.fin 10], some (affineSolver [2, 3] [2, 2])⟩
      (affineSolver [2, 3] [2, 2]) [Dbl.fin 0, Dbl.fin 0] (zeros 2) (zeros 2)
      (List.replicate 2 Wrench.zero) [Dbl.fin 8] rfl).1 rfl rfl rfl rfl (by decide) none,
    (getTorques_checks_output_buffer
      ⟨2, [Dbl.fin 10, Dbl.fin 10], some (affineSolver [2, 3] [2, 2])⟩
      (affineSolver [2, 3] [2, 2]) [Dbl.fin 0, Dbl.fin 0] (zeros 2) (zeros 2)
      (List.replicate 2 Wrench.zero) [Dbl.fin 8] rfl).2⟩

/-! ## The headroom of line 181 -/

/-- For a non-negative limit the signed maximum of line 181 is always its
first argument, `limit - zero`. -/
theorem headroom_fin (l z : ℚ) (hl : 0 ≤ l) :
    Dbl.max (Dbl.sub (Dbl.fin l) (Dbl.fin z)) (Dbl.sub (Dbl.neg (Dbl.fin l)) (Dbl.fin z))
      = Dbl.fin (l - z) := by
  simp only [Dbl.sub, Dbl.neg, max_fin]
  rw [max_eq_left (by linarith)]

/-- C14, as the claim states it, fails: with limit 10 and zero-load torque 3
the headroom computed by line 181 is 7, while the candidate of larger
magnitude is `-13`. -/
theorem headroom_not_larger_magnitude :
    Dbl.max (Dbl.sub (Dbl.fin 10) (Dbl.fin 3)) (Dbl.sub (Dbl.neg (Dbl.fin 10)) (Dbl.fin 3))
        = Dbl.fin 7
      ∧ |max ((10 : ℚ) - 3) (-10 - 3)| ≠ max |(10 : ℚ) - 3| |(-10 : ℚ) - 3| := by
  constructor
  · rw [headroom_fin 10 3 (by norm_num)]
    norm_num
  · norm_num [abs_of_pos, abs_of_neg]

/-- C14, amended: for a limit `>= 0` the headroom of line 181 is
`limit - zero`, and its magnitude is that of the larger of the two candidates,
`|max(limit - zero, -limit - zero)| = max(|limit - zero|, |-limit - zero|)`,
exactly when the zero-load torque is `<= 0` or the limit is 0. -/
theorem headroom_larger_magnitude_iff (l z : ℚ) (hl : 0 ≤ l) :
    ∃ h : ℚ, Dbl.max (Dbl.sub (Dbl.fin l) (Dbl.fin z)) (Dbl.sub (Dbl.neg (Dbl.fin l)) (Dbl.fin z))
        = Dbl.fin h
      ∧ h = max (l - z) (-l - z)
      ∧ (|h| = max |l - z| |-l - z| ↔ (z ≤ 0 ∨ l = 0)) := by
  refine ⟨l - z, headroom_fin l z hl, (max_eq_left (by linarith)).symm, ?_⟩
  constructor
  · intro h
    have h1 : |-l - z| ≤ |l - z| := by
      rw [h]
      exact le_max_right _ _
    have h2 : (-l - z) ^ 2 ≤ (l - z) ^ 2 := sq_le_sq.2 h1
    by_contra hc
    push_neg at hc
    obtain ⟨hz, hl0⟩ := hc
    have hlpos : 0 < l := lt_of_le_of_ne hl (Ne.symm hl0)
    nlinarith [mul_pos hlpos hz]
  · rintro (hz | hl0)
    · rw [abs_of_nonneg (by linarith : 0 ≤ l - z)]
      refine (max_eq_left ?_).symm
      rw [abs_le]
      constructor <;> linarith
    · subst hl0
      simp

/-- C14 amended, at limit 10 and zero-load torque `-3`: headroom 13, the
larger magnitude. -/
theorem headroom_larger_magnitude_iff_witness :
    ∃ h : ℚ, Dbl.max (Dbl.sub (Dbl.fin 10) (Dbl.fin (-3)))
          (Dbl.sub (Dbl.neg (Dbl.fin 10)) (Dbl.fin (-3))) = Dbl.fin h
      ∧ h = max ((10 : ℚ) - (-3)) (-10 - (-3))
      ∧ (|h| = max |(10 : ℚ) - (-3)| |(-10 : ℚ) - (-3)| ↔ ((-3 : ℚ) ≤ 0 ∨ (10 : ℚ) = 0)) :=
  headroom_larger_magnitude_iff 10 (-3) (by norm_num)

/-- C16: for a limit `>= 0` the maximum of line 181 always selects
`limit - zero`, so the value pushed for a joint is
`fabs(limit - zero) / fabs(load - zero)` whatever the sign of `load - zero`;
for `load ≠ zero` that is the number `|limit - zero| / |load - zero|`. -/
theorem headroom_selection_vacuous (l z t : ℚ) (hl : 0 ≤ l) :
    Dbl.max (Dbl.sub (Dbl.fin l) (Dbl.fin z)) (Dbl.sub (Dbl.neg (Dbl.fin l)) (Dbl.fin z))
        = Dbl.fin (l - z)
      ∧ max (l - z) (-l - z) = l - z
      ∧ payload_max (Dbl.fin l) (Dbl.fin z) (Dbl.fin t)
          = Dbl.div (Dbl.fabs (Dbl.sub (Dbl.fin l) (Dbl.fin z)))
              (Dbl.fabs (Dbl.sub (Dbl.fin t) (Dbl.fin z)))
      ∧ (t ≠ z → payload_max (Dbl.fin l) (Dbl.fin z) (Dbl.fin t)
          = Dbl.fin (|l - z| / |t - z|)) := by
  refine ⟨headroom_fin l z hl, max_eq_left (by linarith), ?_, ?_⟩
  · unfold payload_max
    rw [headroom_fin l z hl]
    simp only [Dbl.sub, Dbl.fabs, Dbl.div, abs_eq_zero, abs_pos]
    by_cases h0 : t - z = 0
    · simp only [h0, if_true]
      by_cases h1 : 0 < l - z
      · simp [h1, ne_of_gt h1, Dbl.fabs]
      · by_cases h2 : l - z < 0
        · simp [h1, h2, ne_of_lt h2, Dbl.fabs]
        · have h3 : l - z = 0 := le_antisymm (not_lt.1 h1) (not_lt.1 h2)
          simp [h3, Dbl.fabs]
    · simp only [h0, if_false, Dbl.fabs, abs_div]
  · intro hne
    have h0 : t - z ≠ 0 := sub_ne_zero.2 hne
    unfold payload_max
    rw [headroom_fin l z hl]
    simp only [Dbl.sub, Dbl.div, h0, if_false, Dbl.fabs, abs_div]

/-- C16 at limit 10, zero-load torque 3 and unit-load torque 1 (a negative
contribution): the value pushed is `7 / 2`. -/
theorem headroom_selection_vacuous_witness :
    Dbl.max (Dbl.sub (Dbl.fin 10) (Dbl.fin 3)) (Dbl.sub (Dbl.neg (Dbl.fin 10)) (Dbl.fin 3))
        = Dbl.fin (10 - 3)
      ∧ max ((10 : ℚ) - 3) (-10 - 3) = 10 - 3
      ∧ payload_max (Dbl.fin 10) (Dbl.fin 3) (Dbl.fin 1)
          = Dbl.div (Dbl.fabs (Dbl.sub (Dbl.fin 10) (Dbl.fin 3)))
              (Dbl.fabs (Dbl.sub (Dbl.fin 1) (Dbl.fin 3)))
      ∧ ((1 : ℚ) ≠ 3 → payload_max (Dbl.fin 10) (Dbl.fin 3) (Dbl.fin 1)
          = Dbl.fin (|(10 : ℚ) - 3| / |(1 : ℚ) - 3|)) :=
  headroom_selection_vacuous 10 3 1 (by norm_num)

/-! ## Payload estimation: access safety and linearity -/

/-- C19: on an estimator whose solver is set, with `N ≥ 1` joints and at
least `N` torque limits, and for a position vector of length `N`:
`wrenches.back()` exists, the loop of lines 179-185 reads `max_torques_[i]`,
`zero_torques[i]` and `torques[i]` in bounds and produces exactly `N` values,
`max_element` runs on a non-empty range, and `getMaxPayload` returns with
success (the `none` branches of the embedding are not taken). -/
theorem getMaxPayload_access_safe (s : DynamicsSolver) (solver : ChainIdSolver_RNE)
    (q : List Dbl) (payload : Dbl) (js : Nat)
    (hs : s.chain_id_solver_ = some solver) (hN : 1 ≤ s.num_joints_)
    (hM : s.num_joints_ ≤ s.max_torques_.length) (hq : q.length = s.num_joints_) :
    (∃ w1, setBackForceZ (List.replicate s.num_joints_ Wrench.zero) = some w1
        ∧ w1.length = s.num_joints_)
      ∧ (∀ Z T : List Dbl, Z.length = s.num_joints_ → T.length = s.num_joints_ →
          ∃ jpm, jointPayloadMaxLoop s.max_torques_ Z T (List.range s.num_joints_) [] = some jpm
            ∧ jpm.length = s.num_joints_ ∧ ∃ v, max_element jpm = some v)
      ∧ ∃ v, getMaxPayload s q payload js = some ⟨true, v, js⟩ := by
  have hget : ∀ (L : List Dbl) (i : Nat), i < L.length →
      L[i]? = some (L.getD i (Dbl.fin 0)) := by
    intro L i hi
    rw [List.getD_eq_getElem?_getD, List.getElem?_eq_getElem hi]
    rfl
  have hne : ∀ f : Nat → Dbl, (List.range s.num_joints_).map f ≠ [] := by
    intro f h
    have := congrArg List.length h
    simp at this
    omega
  refine ⟨?_, ?_, ?_⟩
  · obtain ⟨n, hn⟩ : ∃ n, s.num_joints_ = n + 1 := ⟨s.num_joints_ - 1, by omega⟩
    rw [hn, setBackForceZ_replicate]
    exact ⟨_, rfl, by simp⟩
  · intro Z T hZ hT
    rw [jointPayloadMaxLoop_eq s.max_torques_ Z T (fun i => s.max_torques_.getD i (Dbl.fin 0))
      (fun i => Z.getD i (Dbl.fin 0)) (fun i => T.getD i (Dbl.fin 0))]
    · rw [List.nil_append]
      exact ⟨_, rfl, by simp, max_element_isSome _ (hne _)⟩
    · intro i hi
      have hi : i < s.num_joints_ := List.mem_range.1 hi
      exact ⟨hget _ i (by omega), hget _ i (by omega), hget _ i (by omega)⟩
  · rw [getMaxPayload_sized s solver q payload js (fun i => s.max_torques_.getD i (Dbl.fin 0))
      hs hN hq (fun i hi => hget _ i (by omega))]
    obtain ⟨v, hv⟩ := max_element_isSome _ (hne _)
    exact ⟨v, by rw [hv]; rfl⟩

/-- C19 on the spec scenario: two joints, two limits, a position vector of
length two. -/
theorem getMaxPayload_access_safe_witness :
    (∃ w1, setBackForceZ (List.replicate 2 Wrench.zero) = some w1 ∧ w1.length = 2)
      ∧ (∀ Z T : List Dbl, Z.length = 2 → T.length = 2 →
          ∃ jpm, jointPayloadMaxLoop [Dbl.fin 10, Dbl.fin 10] Z T (List.range 2) [] = some jpm
            ∧ jpm.length = 2 ∧ ∃ v, max_element jpm = some v)
      ∧ ∃ v, getMaxPayload ⟨2, [Dbl.fin 10, Dbl.fin 10], some (affineSolver [2, 3] [2, 2])⟩
          [Dbl.fin 0, Dbl.fin 0] (Dbl.fin 0) 7 = some ⟨true, v, 7⟩ :=
  getMaxPayload_access_safe
    ⟨2, [Dbl.fin 10, Dbl.fin 10], some (affineSolver [2, 3] [2, 2])⟩
    (affineSolver [2, 3] [2, 2]) [Dbl.fin 0, Dbl.fin 0] (Dbl.fin 0) 7 rfl (by decide)
    (by decide) rfl

/-- For finite limits and solver torques that differ at every joint, the
payload reported is a per-joint value `payloadMaxQ` that bounds all others. -/
theorem getMaxPayload_fin (s : DynamicsSolver) (solver : ChainIdSolver_RNE)
    (q : List Dbl) (payload : Dbl) (js : Nat) (limit zeroTorque loadTorque : Nat → ℚ)
    (hs : s.chain_id_solver_ = some solver) (hN : 1 ≤ s.num_joints_)
    (hlim : ∀ i, i < s.num_joints_ → s.max_torques_[i]? = some (Dbl.fin (limit i)))
    (hq : q.length = s.num_joints_)
    (hz : ∀ i, i < s.num_joints_ →
      solver q (zeros s.num_joints_) (zeros s.num_joints_) (zeroLoad s.num_joints_) i
        = Dbl.fin (zeroTorque i))
    (hl : ∀ i, i < s.num_joints_ →
      solver q (zeros s.num_joints_) (zeros s.num_joints_) (unitLoad s.num_joints_) i
        = Dbl.fin (loadTorque i))
    (hne : ∀ i, i < s.num_joints_ → loadTorque i ≠ zeroTorque i) :
    ∃ p : ℚ, getMaxPayload s q payload js = some ⟨true, Dbl.fin p, js⟩
      ∧ (∃ k, k < s.num_joints_ ∧ p = payloadMaxQ (limit k) (zeroTorque k) (loadTorque k))
      ∧ ∀ i, i < s.num_joints_ → payloadMaxQ (limit i) (zeroTorque i) (loadTorque i) ≤ p := by
  rw [getMaxPayload_sized s solver q payload js (fun i => Dbl.fin (limit i)) hs hN hq hlim]
  have hmap : (List.range s.num_joints_).map (fun i =>
      payload_max (Dbl.fin (limit i))
        (solver q (zeros s.num_joints_) (zeros s.num_joints_) (zeroLoad s.num_joints_) i)
        (solver q (zeros s.num_joints_) (zeros s.num_joints_) (unitLoad s.num_joints_) i))
      = ((List.range s.num_joints_).map
          (fun i => payloadMaxQ (limit i) (zeroTorque i) (loadTorque i))).map Dbl.fin := by
    rw [List.map_map]
    apply List.map_congr_left
    intro i hi
    have hi : i < s.num_joints_ := List.mem_range.1 hi
    simp only [Function.comp, hz i hi, hl i hi, payload_max_fin _ _ _ (hne i hi)]
  rw [hmap]
  obtain ⟨p, hp, hmem, hub⟩ := max_element_fin
    ((List.range s.num_joints_).map
      (fun i => payloadMaxQ (limit i) (zeroTorque i) (loadTorque i)))
    (by
      intro h
      have := congrArg List.length h
      simp at this
      omega)
  refine ⟨p, by rw [hp]; rfl, ?_, ?_⟩
  · obtain ⟨k, hk, hkp⟩ := List.mem_map.1 hmem
    exact ⟨k, List.mem_range.1 hk, hkp.symm⟩
  · intro i hi
    exact hub _ (List.mem_map.2 ⟨i, List.mem_range.2 hi, rfl⟩)

theorem payloadMaxQ_doubled (l z d : ℚ) :
    payloadMaxQ l z (z + 2 * d) = payloadMaxQ l z (z + d) / 2 := by
  unfold payloadMaxQ
  have e1 : z + 2 * d - z = 2 * d := by ring
  have e2 : z + d - z = d := by ring
  rw [e1, e2, abs_div, abs_div, abs_mul, abs_of_pos (by norm_num : (0 : ℚ) < 2)]
  rw [div_div, mul_comm]

/-- C15: with the same limits and zero-load torques `zeroTorque`, and
per-unit contributions `d` that are nonzero at every joint, the payload
computed from unit-load torques `zeroTorque + 2 * d` is exactly half the
payload computed from unit-load torques `zeroTorque + d`. -/
theorem getMaxPayload_halves_when_load_doubles (N : Nat) (M : List Dbl)
    (solver1 solver2 : ChainIdSolver_RNE) (q : List Dbl) (payload : Dbl) (js : Nat)
    (limit zeroTorque d : Nat → ℚ)
    (hN : 1 ≤ N)
    (hlim : ∀ i, i < N → M[i]? = some (Dbl.fin (limit i)))
    (hq : q.length = N)
    (hz1 : ∀ i, i < N → solver1 q (zeros N) (zeros N) (zeroLoad N) i = Dbl.fin (zeroTorque i))
    (hl1 : ∀ i, i < N →
      solver1 q (zeros N) (zeros N) (unitLoad N) i = Dbl.fin (zeroTorque i + d i))
    (hz2 : ∀ i, i < N → solver2 q (zeros N) (zeros N) (zeroLoad N) i = Dbl.fin (zeroTorque i))
    (hl2 : ∀ i, i < N →
      solver2 q (zeros N) (zeros N) (unitLoad N) i = Dbl.fin (zeroTorque i + 2 * d i))
    (hd : ∀ i, i < N → d i ≠ 0) :
    ∃ p : ℚ, getMaxPayload ⟨N, M, some solver1⟩ q payload js = some ⟨true, Dbl.fin p, js⟩
      ∧ getMaxPayload ⟨N, M, some solver2⟩ q payload js = some ⟨true, Dbl.fin (p / 2), js⟩ := by
  obtain ⟨p1, h1, ⟨k1, hk1, hp1⟩, hub1⟩ :=
    getMaxPayload_fin ⟨N, M, some solver1⟩ solver1 q payload js limit zeroTorque
      (fun i => zeroTorque i + d i) rfl hN hlim hq hz1 hl1
      (fun i hi => by simpa using hd i hi)
  obtain ⟨p2, h2, ⟨k2, hk2, hp2⟩, hub2⟩ :=
    getMaxPayload_fin ⟨N, M, some solver2⟩ solver2 q payload js limit zeroTorque
      (fun i => zeroTorque i + 2 * d i) rfl hN hlim hq hz2 hl2
      (fun i hi => by simpa using hd i hi)
  have hk1 : k1 < N := hk1
  have hk2 : k2 < N := hk2
  have e : p2 = p1 / 2 := by
    apply le_antisymm
    · have := hub1 k2 hk2
      simp only [] at this hp2
      rw [hp2, payloadMaxQ_doubled]
      linarith
    · have := hub2 k1 hk1
      simp only [] at this hp1
      rw [payloadMaxQ_doubled] at this
      rw [hp1]
      exact this
  exact ⟨p1, h1, by rw [h2, e]⟩

/-- C15 on the spec scenario: contributions `[2, 2]` give payload 4 and,
doubled to `[4, 4]`, payload 2. -/
theorem getMaxPayload_halves_when_load_doubles_witness :
    ∃ p : ℚ,
      getMaxPayload ⟨2, [Dbl.fin 10, Dbl.fin 10], some (affineSolver [2, 3] [2, 2])⟩
        [Dbl.fin 0, Dbl.fin 0] (Dbl.fin 0) 7 = some ⟨true, Dbl.fin p, 7⟩
      ∧ getMaxPayload ⟨2, [Dbl.fin 10, Dbl.fin 10], some (affineSolver [2, 3] [4, 4])⟩
        [Dbl.fin 0, Dbl.fin 0] (Dbl.fin 0) 7 = some ⟨true, Dbl.fin (p / 2), 7⟩ :=
  getMaxPayload_halves_when_load_doubles 2 [Dbl.fin 10, Dbl.fin 10]
    (affineSolver [2, 3] [2, 2]) (affineSolver [2, 3] [4, 4]) [Dbl.fin 0, Dbl.fin 0]
    (Dbl.fin 0) 7 (fun _ => 10) (fun i => ([2, 3] : List ℚ).getD i 0) (fun _ => 2)
    (by decide)
    (by intro i hi; interval_cases i <;> rfl)
    rfl
    (by intro i hi; interval_cases i <;> simp [affineSolver, zeroLoad, List.replicate])
    (by intro i hi; interval_cases i <;> simp [affineSolver, unitLoad, List.replicate])
    (by intro i hi; interval_cases i <;> simp [affineSolver, zeroLoad, List.replicate])
    (by intro i hi; interval_cases i <;> simp [affineSolver, unitLoad, List.replicate]
        <;> norm_num)
    (by intro i _; norm_num)

/-! ## Saturation-multiplier search: sign of the result -/

/-- One run of the loop of lines 200-208 over joints none of which has a zero
remaining torque together with `|jointTorque| > |zeroTorque|`: the multiplier
stays 0 or becomes `|jointTorque[k] / remaining[k]|` for a joint `k` with
nonzero remaining torque. -/
theorem multiplierLoop_fin (JT Z R : List Dbl) (jt z r : Nat → ℚ) (N : Nat) :
    ∀ (idx : List Nat) (m : ℚ) (js : Nat),
      (∀ i ∈ idx, i < N ∧ JT[i]? = some (Dbl.fin (jt i)) ∧ Z[i]? = some (Dbl.fin (z i))
        ∧ R[i]? = some (Dbl.fin (r i)) ∧ (r i = 0 → |jt i| ≤ |z i|)) →
      (m = 0 ∨ ∃ k, k < N ∧ r k ≠ 0 ∧ m = |jt k / r k|) →
      ∃ m1 js1, multiplierLoop JT Z R idx (Dbl.fin m) js = some (Dbl.fin m1, js1)
        ∧ (m1 = 0 ∨ ∃ k, k < N ∧ r k ≠ 0 ∧ m1 = |jt k / r k|) := by
  intro idx
  induction idx with
  | nil => intro m js _ hm; exact ⟨m, js, rfl, hm⟩
  | cons i rest ih =>
    intro m js h hm
    obtain ⟨hi, h1, h2, h3, hr⟩ := h i (List.mem_cons_self _ _)
    have hrest := fun j hj => h j (List.mem_cons_of_mem _ hj)
    simp only [multiplierLoop, h1, h2, h3, Option.bind_eq_bind, Option.some_bind]
    by_cases hc : Dbl.gt (Dbl.div (Dbl.sub (Dbl.fabs (Dbl.fin (jt i))) (Dbl.fabs (Dbl.fin (z i))))
        (Dbl.fin (r i))) (Dbl.fin m) = true
    · rw [if_pos hc]
      by_cases hr0 : r i = 0
      · exfalso
        have hle : ¬ (0 < |jt i| - |z i|) := by
          have := hr hr0
          linarith
        simp only [Dbl.gt, Dbl.fabs, Dbl.sub, Dbl.div, hr0, if_true, hle, if_false] at hc
        split_ifs at hc <;> simp [Dbl.lt] at hc
      · have hstore : Dbl.fabs (Dbl.div (Dbl.fin (jt i)) (Dbl.fin (r i)))
            = Dbl.fin |jt i / r i| := by
          simp only [Dbl.div, hr0, if_false, Dbl.fabs]
        rw [hstore]
        exact ih _ i hrest (Or.inr ⟨i, hi, hr0, rfl⟩)
    · rw [if_neg hc]
      exact ih m js hrest hm

/-- Once the multiplier is `+inf` no later joint passes the test of line 203. -/
theorem multiplierLoop_pinf (JT Z R : List Dbl) :
    ∀ (idx : List Nat) (js : Nat),
      (∀ i ∈ idx, (∃ a, JT[i]? = some a) ∧ (∃ b, Z[i]? = some b) ∧ ∃ c, R[i]? = some c) →
      ∃ js1, multiplierLoop JT Z R idx Dbl.pinf js = some (Dbl.pinf, js1) := by
  intro idx
  induction idx with
  | nil => intro js _; exact ⟨js, rfl⟩
  | cons i rest ih =>
    intro js h
    obtain ⟨⟨a, h1⟩, ⟨b, h2⟩, ⟨c, h3⟩⟩ := h i (List.mem_cons_self _ _)
    have hrest := fun j hj => h j (List.mem_cons_of_mem _ hj)
    simp only [multiplierLoop, h1, h2, h3, Option.bind_eq_bind, Option.some_bind]
    have hc : ¬ (Dbl.gt (Dbl.div (Dbl.sub (Dbl.fabs a) (Dbl.fabs b)) c) Dbl.pinf = true) := by
      unfold Dbl.gt
      cases Dbl.div (Dbl.sub (Dbl.fabs a) (Dbl.fabs b)) c <;> simp [Dbl.lt]
    rw [if_neg hc]
    exact ih js hrest

/-- A joint with zero remaining torque and `|jointTorque| > |zeroTorque|`
drives the multiplier to `+inf`, whatever finite value it had. -/
theorem multiplierLoop_bad (JT Z R : List Dbl) (jt z r : Nat → ℚ) :
    ∀ (idx : List Nat) (m : ℚ) (js : Nat),
      (∀ i ∈ idx, JT[i]? = some (Dbl.fin (jt i)) ∧ Z[i]? = some (Dbl.fin (z i))
        ∧ R[i]? = some (Dbl.fin (r i))) →
      (∃ i ∈ idx, r i = 0 ∧ |z i| < |jt i|) →
      ∃ js1, multiplierLoop JT Z R idx (Dbl.fin m) js = some (Dbl.pinf, js1) := by
  intro idx
  induction idx with
  | nil => intro m js _ hb; obtain ⟨i, hi, _⟩ := hb; simp at hi
  | cons i rest ih =>
    intro m js h hb
    obtain ⟨h1, h2, h3⟩ := h i (List.mem_cons_self _ _)
    have hrest := fun j hj => h j (List.mem_cons_of_mem _ hj)
    have hreads : ∀ j ∈ rest,
        (∃ a, JT[j]? = some a) ∧ (∃ b, Z[j]? = some b) ∧ ∃ c, R[j]? = some c :=
      fun j hj => ⟨⟨_, (hrest j hj).1⟩, ⟨_, (hrest j hj).2.1⟩, ⟨_, (hrest j hj).2.2⟩⟩
    simp only [multiplierLoop, h1, h2, h3, Option.bind_eq_bind, Option.some_bind]
    by_cases hbi : r i = 0 ∧ |z i| < |jt i|
    · obtain ⟨hr0, hlt⟩ := hbi
      have hpos : 0 < |jt i| - |z i| := by linarith
      have hjt0 : jt i ≠ 0 := by
        intro h0
        rw [h0, abs_zero] at hlt
        exact absurd hlt (not_lt.2 (abs_nonneg _))
      have hc : Dbl.gt (Dbl.div (Dbl.sub (Dbl.fabs (Dbl.fin (jt i))) (Dbl.fabs (Dbl.fin (z i))))
          (Dbl.fin (r i))) (Dbl.fin m) = true := by
        simp [Dbl.gt, Dbl.fabs, Dbl.sub, Dbl.div, hr0, hpos, Dbl.lt]
      have hstore : Dbl.fabs (Dbl.div (Dbl.fin (jt i)) (Dbl.fin (r i))) = Dbl.pinf := by
        rcases lt_or_gt_of_ne hjt0 with hneg | hpos2
        · simp [Dbl.div, hr0, hneg, not_lt.2 (le_of_lt hneg), Dbl.fabs]
        · simp [Dbl.div, hr0, hpos2, Dbl.fabs]
      rw [if_pos hc, hstore]
      exact multiplierLoop_pinf JT Z R rest i hreads
    · have hb2 : ∃ j ∈ rest, r j = 0 ∧ |z j| < |jt j| := by
        obtain ⟨j, hj, hbj⟩ := hb
        rcases List.mem_cons.1 hj with rfl | hj
        · exact absurd hbj hbi
        · exact ⟨j, hj, hbj⟩
      by_cases hc : Dbl.gt (Dbl.div (Dbl.sub (Dbl.fabs (Dbl.fin (jt i)))
          (Dbl.fabs (Dbl.fin (z i)))) (Dbl.fin (r i))) (Dbl.fin m) = true
      · rw [if_pos hc]
        by_cases hr0 : r i = 0
        · have hj0 : 0 < jt i ∨ jt i < 0 ∨ jt i = 0 := by
            rcases lt_trichotomy 0 (jt i) with h | h | h
            · exact Or.inl h
            · exact Or.inr (Or.inr h.symm)
            · exact Or.inr (Or.inl h)
          rcases hj0 with hp | hn | hz
          · have : Dbl.fabs (Dbl.div (Dbl.fin (jt i)) (Dbl.fin (r i))) = Dbl.pinf := by
              simp [Dbl.div, hr0, hp, Dbl.fabs]
            rw [this]
            exact multiplierLoop_pinf JT Z R rest i hreads
          · have : Dbl.fabs (Dbl.div (Dbl.fin (jt i)) (Dbl.fin (r i))) = Dbl.pinf := by
              simp [Dbl.div, hr0, hn, not_lt.2 (le_of_lt hn), Dbl.fabs]
            rw [this]
            exact multiplierLoop_pinf JT Z R rest i hreads
          · exfalso
            have hle : ¬ (0 < |jt i| - |z i|) := by
              rw [hz, abs_zero]
              have := abs_nonneg (z i)
              linarith
            simp only [Dbl.gt, Dbl.fabs, Dbl.sub, Dbl.div, hr0, if_true, hle, if_false] at hc
            split_ifs at hc <;> simp [Dbl.lt] at hc
        · have hstore : Dbl.fabs (Dbl.div (Dbl.fin (jt i)) (Dbl.fin (r i)))
              = Dbl.fin |jt i / r i| := by
            simp only [Dbl.div, hr0, if_false, Dbl.fabs]
          rw [hstore]
          exact ih _ i hrest hb2
      · rw [if_neg hc]
        exact ih m js hrest hb2

/-- The failing input of C18 evaluated on the code: limit 5, zero-load torque
5 (remaining torque 0) and joint torque 7 give multiplier `1 / inf = 0`. -/
theorem zero_remaining_eval (js : Nat) :
    findMaxTorqueMultiplier ⟨1, [Dbl.fin 5], some (affineSolver [5] [2])⟩
      [Dbl.fin 7] [Dbl.fin 5] js = some ⟨Dbl.fin 0, 0⟩ := by
  simp [findMaxTorqueMultiplier, remainingTorquesLoop, multiplierLoop, List.range,
    List.range.loop, Dbl.sub, Dbl.fabs, Dbl.div, Dbl.gt, Dbl.lt, Dbl.eq]
  norm_num [abs_of_pos]

/-- C18, as the claim states it, fails: with one joint of limit 5, zero-load
torque 5 (remaining torque exactly 0) and joint torque 7, the multiplier
returned is not a positive number. -/
theorem findMaxTorqueMultiplier_zero_remaining_not_positive :
    ¬ ∃ (p : ℚ) (js1 : Nat),
        findMaxTorqueMultiplier ⟨1, [Dbl.fin 5], some (affineSolver [5] [2])⟩
          [Dbl.fin 7] [Dbl.fin 5] 0 = some ⟨Dbl.fin p, js1⟩ ∧ 0 < p := by
  rintro ⟨p, js1, h, hp⟩
  rw [zero_remaining_eval 0] at h
  have hp0 : (0 : ℚ) = p := by
    injection h with h
    injection h with h1 _
    injection h1
  rw [← hp0] at hp
  exact lt_irrefl _ hp

/-- C18, amended: for finite limits, zero-load torques and joint torques of
length `N`, `findMaxTorqueMultiplier` returns a value `> 0` exactly when no
joint has a remaining torque `|limit| - |zero|` of exactly 0 together with
`|jointTorque| > |zeroTorque|` (otherwise it returns 0); and then the result
is either exactly 1 or `1 / |jointTorque[k] / remaining[k]|` for some joint `k`
with that quantity nonzero.  Joints with negative remaining torque, and joints
with zero remaining torque and `|jointTorque| <= |zeroTorque|`, are allowed. -/
theorem findMaxTorqueMultiplier_positive_iff (s : DynamicsSolver)
    (joint_torques zero_torques : List Dbl) (js : Nat) (limit zt jt : Nat → ℚ)
    (hlim : ∀ i, i < s.num_joints_ → s.max_torques_[i]? = some (Dbl.fin (limit i)))
    (hzt : ∀ i, i < s.num_joints_ → zero_torques[i]? = some (Dbl.fin (zt i)))
    (hjt : ∀ i, i < s.num_joints_ → joint_torques[i]? = some (Dbl.fin (jt i))) :
    ∃ (p : ℚ) (js1 : Nat),
      findMaxTorqueMultiplier s joint_torques zero_torques js = some ⟨Dbl.fin p, js1⟩
        ∧ (0 < p ↔ ∀ i, i < s.num_joints_ → |limit i| - |zt i| = 0 → |jt i| ≤ |zt i|)
        ∧ ((∃ i, i < s.num_joints_ ∧ |limit i| - |zt i| = 0 ∧ |zt i| < |jt i|) → p = 0)
        ∧ ((∀ i, i < s.num_joints_ → |limit i| - |zt i| = 0 → |jt i| ≤ |zt i|) →
            (p = 1 ∨ ∃ k, k < s.num_joints_ ∧ |limit k| - |zt k| ≠ 0
              ∧ |jt k / (|limit k| - |zt k|)| ≠ 0
              ∧ p = 1 / |jt k / (|limit k| - |zt k|)|)) := by
  unfold findMaxTorqueMultiplier
  rw [remainingTorquesLoop_eq s.max_torques_ zero_torques (fun i => Dbl.fin (limit i))
    (fun i => Dbl.fin (zt i)) _ _
    (fun i hi => ⟨hlim i (List.mem_range.1 hi), hzt i (List.mem_range.1 hi)⟩)]
  simp only [List.nil_append]
  have hR : ∀ i, i < s.num_joints_ →
      ((List.range s.num_joints_).map (fun i =>
        Dbl.sub (Dbl.fabs (Dbl.fin (limit i))) (Dbl.fabs (Dbl.fin (zt i)))))[i]?
        = some (Dbl.fin (|limit i| - |zt i|)) := by
    intro i hi
    simp [List.getElem?_map, List.getElem?_range, hi, Dbl.sub, Dbl.fabs]
  by_cases hbad : ∃ i, i < s.num_joints_ ∧ |limit i| - |zt i| = 0 ∧ |zt i| < |jt i|
  · obtain ⟨js1, hloop⟩ := multiplierLoop_bad joint_torques zero_torques
      ((List.range s.num_joints_).map (fun i =>
        Dbl.sub (Dbl.fabs (Dbl.fin (limit i))) (Dbl.fabs (Dbl.fin (zt i)))))
      jt zt (fun i => |limit i| - |zt i|) (List.range s.num_joints_) 0 js
      (fun i hi => ⟨hjt i (List.mem_range.1 hi), hzt i (List.mem_range.1 hi),
        hR i (List.mem_range.1 hi)⟩)
      (by
        obtain ⟨i, hi, hb⟩ := hbad
        exact ⟨i, List.mem_range.2 hi, hb⟩)
    rw [hloop]
    refine ⟨0, js1, by simp [Dbl.eq, Dbl.div], ?_, fun _ => rfl, ?_⟩
    · constructor
      · intro h; exact absurd h (lt_irrefl _)
      · intro h
        obtain ⟨i, hi, hr0, hlt⟩ := hbad
        exact absurd (h i hi hr0) (not_le.2 hlt)
    · intro h
      obtain ⟨i, hi, hr0, hlt⟩ := hbad
      exact absurd (h i hi hr0) (not_le.2 hlt)
  · have hgood : ∀ i, i < s.num_joints_ → |limit i| - |zt i| = 0 → |jt i| ≤ |zt i| := by
      intro i hi hr0
      by_contra hc
      exact hbad ⟨i, hi, hr0, not_le.1 hc⟩
    obtain ⟨m1, js1, hloop, hinv⟩ := multiplierLoop_fin joint_torques zero_torques
      ((List.range s.num_joints_).map (fun i =>
        Dbl.sub (Dbl.fabs (Dbl.fin (limit i))) (Dbl.fabs (Dbl.fin (zt i)))))
      jt zt (fun i => |limit i| - |zt i|) s.num_joints_ (List.range s.num_joints_) 0 js
      (fun i hi => ⟨List.mem_range.1 hi, hjt i (List.mem_range.1 hi),
        hzt i (List.mem_range.1 hi), hR i (List.mem_range.1 hi),
        hgood i (List.mem_range.1 hi)⟩)
      (Or.inl rfl)
    rw [hloop]
    by_cases h0 : m1 = 0
    · subst h0
      exact ⟨1, js1, by simp [Dbl.eq], ⟨fun _ => hgood, fun _ => by norm_num⟩,
        fun hb => absurd hb hbad, fun _ => Or.inl rfl⟩
    · rcases hinv with h | ⟨k, hk, hrk, hm⟩
      · exact absurd h h0
      · have hpos : 0 < m1 := lt_of_le_of_ne (hm ▸ abs_nonneg _) (Ne.symm h0)
        refine ⟨1 / m1, js1, by simp [Dbl.eq, Dbl.div, h0],
          ⟨fun _ => hgood, fun _ => by positivity⟩, fun hb => absurd hb hbad,
          fun _ => Or.inr ⟨k, hk, hrk, ?_, ?_⟩⟩
        · rw [← hm]; exact h0
        · rw [← hm]

/-- C18 amended, on two joints, the second with remaining torque exactly 0 and
`|jointTorque| <= |zeroTorque|`: limits `[10, 5]`, zero-load torques `[0, 5]`,
joint torques `[5, 3]` give a positive multiplier. -/
theorem findMaxTorqueMultiplier_positive_iff_witness :
    ∃ (p : ℚ) (js1 : Nat),
      findMaxTorqueMultiplier ⟨2, [Dbl.fin 10, Dbl.fin 5], some (affineSolver [0, 5] [1, 1])⟩
          [Dbl.fin 5, Dbl.fin 3] [Dbl.fin 0, Dbl.fin 5] 7 = some ⟨Dbl.fin p, js1⟩
        ∧ 0 < p := by
  obtain ⟨p, js1, h, hiff, _, _⟩ := findMaxTorqueMultiplier_positive_iff
    ⟨2, [Dbl.fin 10, Dbl.fin 5], some (affineSolver [0, 5] [1, 1])⟩
    [Dbl.fin 5, Dbl.fin 3] [Dbl.fin 0, Dbl.fin 5] 7
    (fun k => ([10, 5] : List ℚ).getD k 0) (fun k => ([0, 5] : List ℚ).getD k 0)
    (fun k => ([5, 3] : List ℚ).getD k 0)
    (by intro i hi; have hi : i < 2 := hi; interval_cases i <;> rfl)
    (by intro i hi; have hi : i < 2 := hi; interval_cases i <;> rfl)
    (by intro i hi; have hi : i < 2 := hi; interval_cases i <;> rfl)
  refine ⟨p, js1, h, hiff.2 ?_⟩
  intro i hi
  have hi : i < 2 := hi
  interval_cases i <;> norm_num [abs_of_pos]

end dynamics_solver
